import Mathlib

/-!
Verification development for the openclaw autonomy core.

The TypeScript sources are shallowly embedded: JS numbers are modelled as
rationals (JSON never yields NaN or infinities, and `Number.isFinite`
failures are modelled with `Option`), JS objects with string keys as
association lists, and fallible operations with `Except`/`Option`.
String-template reason messages are abstracted to enumerated tags; the
branch structure producing them mirrors the source exactly.
-/

/-- JS Math.floor on a rational. -/
def jsFloor (x : ℚ) : ℤ := Int.floor x

/-- JS Math.round: floor of x + 1/2 (JS rounds half-up). -/
def jsRound (x : ℚ) : ℤ := Int.floor (x + 1/2)

/-- The clamp pattern Math.max lo (Math.min hi x) used across the source. -/
def jsClamp (x lo hi : ℚ) : ℚ := max lo (min hi x)

/-- JS Array.prototype.slice with a negative index: keep the last n elements. -/
def jsTakeLast (n : Nat) (l : List α) : List α := l.drop (l.length - n)

/-- Canary / promotion-gate status values. -/
inductive CanaryStatus
  | healthy
  | regressed
deriving DecidableEq, Repr

/-- Input record of evaluatePromotionGates (eval/gates.ts). Numeric fields are
Option ℚ: none models an absent or non-finite JS number (Number.isFinite false). -/
structure PromotionGateInput where
  verifiedCandidateCount : Option ℚ
  recentCycleCount : Option ℚ
  recentErrorCount : Option ℚ
  canaryStatus : Option CanaryStatus
  evalScore : Option ℚ
  minimumRecentCycles : Option ℚ
  maximumErrorRate : Option ℚ
  minimumEvalScore : Option ℚ
deriving Repr

/-- Reason tags for the promotion-gate result, one per template string of the
source, in source order. -/
inductive GateReason
  | noVerifiedCandidates
  | insufficientRecentCycles
  | errorRateExceeded
  | canaryRegressed
  | evalScoreBelowMinimum
  | gatesPassed
deriving DecidableEq, Repr

/-- Result record of evaluatePromotionGates. -/
structure PromotionGateResult where
  passed : Bool
  reason : GateReason
  errorRate : ℚ
deriving DecidableEq, Repr

/-- normalizeCount from eval/gates.ts: Number.isFinite(v) ? max(0, floor(v)) : 0. -/
def normalizeCount (v : Option ℚ) : ℤ :=
  match v with
  | none => 0
  | some q => max 0 (jsFloor q)

/-- The hoisted const verifiedCandidateCount binding of evaluatePromotionGates. -/
def gateVerifiedCount (input : PromotionGateInput) : ℤ :=
  normalizeCount input.verifiedCandidateCount

/-- The hoisted const recentCycleCount binding of evaluatePromotionGates. -/
def gateRecentCycleCount (input : PromotionGateInput) : ℤ :=
  normalizeCount input.recentCycleCount

/-- The hoisted const recentErrorCount binding of evaluatePromotionGates. -/
def gateRecentErrorCount (input : PromotionGateInput) : ℤ :=
  normalizeCount input.recentErrorCount

/-- The hoisted const minimumRecentCycles binding (default 3). -/
def gateMinimumRecentCycles (input : PromotionGateInput) : ℤ :=
  match input.minimumRecentCycles with
  | some q => max 1 (jsFloor q)
  | none => 3

/-- The hoisted const maximumErrorRate binding (default 0.2, clamped to [0,1]). -/
def gateMaximumErrorRate (input : PromotionGateInput) : ℚ :=
  match input.maximumErrorRate with
  | some q => jsClamp q 0 1
  | none => 0.2

/-- The hoisted const minimumEvalScore binding (default 0.6, clamped to [0,1]). -/
def gateMinimumEvalScore (input : PromotionGateInput) : ℚ :=
  match input.minimumEvalScore with
  | some q => jsClamp q 0 1
  | none => 0.6

/-- The hoisted const evalScore binding (absent or non-finite becomes 0,
finite values clamped to [0,1]). -/
def gateEvalScore (input : PromotionGateInput) : ℚ :=
  match input.evalScore with
  | some q => jsClamp q 0 1
  | none => 0

/-- The hoisted const errorRate binding: recentErrorCount / recentCycleCount
when recentCycleCount > 0, else 1. -/
def gateErrorRate (input : PromotionGateInput) : ℚ :=
  if 0 < gateRecentCycleCount input then
    (gateRecentErrorCount input : ℚ) / (gateRecentCycleCount input : ℚ)
  else 1

/-- evaluatePromotionGates from eval/gates.ts, branch for branch. -/
def evaluatePromotionGates (input : PromotionGateInput) : PromotionGateResult :=
  if gateVerifiedCount input ≤ 0 then
    ⟨false, .noVerifiedCandidates, gateErrorRate input⟩
  else if gateRecentCycleCount input < gateMinimumRecentCycles input then
    ⟨false, .insufficientRecentCycles, gateErrorRate input⟩
  else if gateMaximumErrorRate input < gateErrorRate input then
    ⟨false, .errorRateExceeded, gateErrorRate input⟩
  else if input.canaryStatus = some .regressed then
    ⟨false, .canaryRegressed, gateErrorRate input⟩
  else if gateEvalScore input < gateMinimumEvalScore input then
    ⟨false, .evalScoreBelowMinimum, gateErrorRate input⟩
  else
    ⟨true, .gatesPassed, gateErrorRate input⟩

/-- The first failed condition in the order stated by the spec:
verified candidates, recent-cycle count, error rate, canary status, eval score. -/
def firstFailedGate (input : PromotionGateInput) : GateReason :=
  if ¬ 0 < gateVerifiedCount input then .noVerifiedCandidates
  else if ¬ gateMinimumRecentCycles input ≤ gateRecentCycleCount input then
    .insufficientRecentCycles
  else if ¬ gateErrorRate input ≤ gateMaximumErrorRate input then .errorRateExceeded
  else if input.canaryStatus = some .regressed then .canaryRegressed
  else if ¬ gateMinimumEvalScore input ≤ gateEvalScore input then .evalScoreBelowMinimum
  else .gatesPassed

/-- C3: evaluatePromotionGates passes iff verifiedCandidateCount > 0,
recentCycleCount ≥ minimumRecentCycles (default 3), errorRate ≤ maximumErrorRate
(default 0.2), canaryStatus is not regressed and evalScore ≥ minimumEvalScore
(default 0.6), with errorRate = recentErrorCount / recentCycleCount when
recentCycleCount > 0 and 1 otherwise; on failure the reason is the first failed
condition in that order. -/
theorem promotion_gates_pass_iff (input : PromotionGateInput) :
    ((evaluatePromotionGates input).passed = true ↔
      0 < gateVerifiedCount input ∧
      gateMinimumRecentCycles input ≤ gateRecentCycleCount input ∧
      gateErrorRate input ≤ gateMaximumErrorRate input ∧
      input.canaryStatus ≠ some .regressed ∧
      gateMinimumEvalScore input ≤ gateEvalScore input) ∧
    (evaluatePromotionGates input).reason = firstFailedGate input ∧
    (evaluatePromotionGates input).errorRate = gateErrorRate input := by
  unfold evaluatePromotionGates firstFailedGate
  simp only [not_lt, not_le]
  split_ifs with h1 h2 h3 h4 h5 <;> refine ⟨?_, rfl, rfl⟩
  · simp only [Bool.false_eq_true, false_iff, not_and]
    intro k1
    omega
  · simp only [Bool.false_eq_true, false_iff, not_and]
    intro _ k2
    omega
  · simp only [Bool.false_eq_true, false_iff, not_and]
    intro _ _ k3
    exact absurd h3 (not_lt.mpr k3)
  · simp only [Bool.false_eq_true, false_iff, not_and]
    intro _ _ _ k4
    exact absurd h4 k4
  · simp only [Bool.false_eq_true, false_iff, not_and]
    intro _ _ _ _ k5
    exact absurd h5 (not_lt.mpr k5)
  · simp only [true_iff]
    push_neg at h3 h5
    exact ⟨by omega, by omega, h3, h4, h5⟩

/-- The nine augmentation stages (types.ts / runtime.phase-machine.ts). -/
inductive Stage
  | discover
  | design
  | synthesize
  | verify
  | canary
  | promote
  | observe
  | learn
  | retire
deriving DecidableEq, Repr

/-- AUGMENTATION_STAGE_ORDER from runtime.phase-machine.ts. -/
def AUGMENTATION_STAGE_ORDER : List Stage :=
  [.discover, .design, .synthesize, .verify, .canary, .promote, .observe, .learn, .retire]

/-- NEXT_STAGE_BY_CURRENT from runtime.phase-machine.ts. -/
def nextStageByCurrent : Stage → Stage
  | .discover => .design
  | .design => .synthesize
  | .synthesize => .verify
  | .verify => .canary
  | .canary => .promote
  | .promote => .observe
  | .observe => .learn
  | .learn => .retire
  | .retire => .discover

/-- isValidAugmentationTransition from runtime.phase-machine.ts. -/
def isValidAugmentationTransition (f t : Stage) : Bool :=
  f == t || nextStageByCurrent f == t

/-- One entry of augmentation.transitions. -/
structure StageTransition where
  from_ : Stage
  dest : Stage
  ts : ℚ
  reason : String
deriving DecidableEq, Repr

/-- The slice of AutonomyState.augmentation touched by transitionAugmentationStage. -/
structure AugmentationStateE where
  stage : Stage
  stageEnteredAt : ℚ
  lastTransitionAt : ℚ
  lastTransitionReason : Option String
  transitions : List StageTransition
deriving DecidableEq, Repr

/-- transitionAugmentationStage from runtime.phase-machine.ts: a thrown Error is
an Except.error; the in-place state mutation is returned as the new state. -/
def transitionAugmentationStage (state : AugmentationStateE) (t : Stage)
    (reason : String) (nowMs : ℚ) : Except String AugmentationStateE :=
  let f := state.stage
  if ¬ isValidAugmentationTransition f t then
    .error "invalid augmentation stage transition"
  else if f = t then
    .ok state
  else
    .ok { state with
      stage := t
      stageEnteredAt := nowMs
      lastTransitionAt := nowMs
      lastTransitionReason := some reason
      transitions := jsTakeLast 200 (state.transitions ++ [⟨f, t, nowMs, reason⟩]) }

/-- C4: transitionAugmentationStage throws exactly when the target is neither the
current stage nor its immediate successor in the nine-stage cycle
discover, design, synthesize, verify, canary, promote, observe, learn, retire
and back to discover; a legal transition to a different stage updates stage,
stageEnteredAt, lastTransitionAt, lastTransitionReason and appends one
transition entry, keeping at most the last 200. -/
theorem transition_stage_spec (state : AugmentationStateE) (t : Stage)
    (reason : String) (nowMs : ℚ) :
    ((∃ e, transitionAugmentationStage state t reason nowMs = .error e) ↔
      ¬ (t = state.stage ∨ t = nextStageByCurrent state.stage)) ∧
    (∀ i : Fin AUGMENTATION_STAGE_ORDER.length,
      nextStageByCurrent (AUGMENTATION_STAGE_ORDER.get i) =
        AUGMENTATION_STAGE_ORDER.get
          ⟨(i + 1) % AUGMENTATION_STAGE_ORDER.length, Nat.mod_lt _ (by decide)⟩) ∧
    (t ≠ state.stage → t = nextStageByCurrent state.stage →
      transitionAugmentationStage state t reason nowMs = .ok
        { stage := t
          stageEnteredAt := nowMs
          lastTransitionAt := nowMs
          lastTransitionReason := some reason
          transitions :=
            jsTakeLast 200 (state.transitions ++ [⟨state.stage, t, nowMs, reason⟩]) }) := by
  refine ⟨?_, ?_, ?_⟩
  · unfold transitionAugmentationStage isValidAugmentationTransition
    constructor
    · rintro ⟨e, he⟩ hor
      rcases hor with h | h <;> simp [h] at he
      split_ifs at he
    · intro hor
      rw [not_or] at hor
      refine ⟨"invalid augmentation stage transition", ?_⟩
      have hb : (state.stage == t || nextStageByCurrent state.stage == t) = false := by
        simp only [Bool.or_eq_false_iff, beq_eq_false_iff_ne, ne_eq]
        exact ⟨fun h => hor.1 h.symm, fun h => hor.2 h.symm⟩
      simp [hb]
  · intro i
    fin_cases i <;> rfl
  · intro hne hnext
    have hb : isValidAugmentationTransition state.stage t = true := by
      unfold isValidAugmentationTransition
      simp [hnext]
    unfold transitionAugmentationStage
    simp only [hb, not_true, Bool.false_eq_true, if_false]
    rw [if_neg (fun h => hne h.symm)]

/-- Witness for transition_stage_spec at a concrete state: discover to design. -/
theorem transition_stage_spec_witness :
    Stage.design ≠ Stage.discover ∧
    Stage.design = nextStageByCurrent Stage.discover ∧
    transitionAugmentationStage ⟨.discover, 0, 0, none, []⟩ .design "phase progression" 7 =
      .ok { stage := .design
            stageEnteredAt := 7
            lastTransitionAt := 7
            lastTransitionReason := some "phase progression"
            transitions := jsTakeLast 200 ([] ++ [⟨.discover, .design, 7, "phase progression"⟩]) } :=
  ⟨by decide, rfl,
    (transition_stage_spec ⟨.discover, 0, 0, none, []⟩ .design "phase progression" 7).2.2
      (by decide) rfl⟩


/-- Stable insertion used to model JS toSorted: insert a after every element
that compares less-or-equal first. -/
def jsInsertSorted (le : α → α → Bool) (a : α) : List α → List α
  | [] => [a]
  | b :: l => if le b a then b :: jsInsertSorted le a l else a :: b :: l

/-- Stable sort used to model JS toSorted with a boolean comparator. -/
def jsToSorted (le : α → α → Bool) : List α → List α
  | [] => []
  | a :: l => jsInsertSorted le a (jsToSorted le l)

theorem jsInsertSorted_perm (le : α → α → Bool) (a : α) (l : List α) :
    List.Perm (jsInsertSorted le a l) (a :: l) := by
  induction l with
  | nil => rfl
  | cons b l ih =>
    unfold jsInsertSorted
    split_ifs
    · exact ((ih.cons b).trans (List.Perm.swap a b l))
    · rfl

theorem jsToSorted_perm (le : α → α → Bool) (l : List α) : List.Perm (jsToSorted le l) l := by
  induction l with
  | nil => rfl
  | cons a l ih =>
    exact (jsInsertSorted_perm le a (jsToSorted le l)).trans (ih.cons a)

theorem mem_jsToSorted (le : α → α → Bool) (l : List α) (a : α) :
    a ∈ jsToSorted le l ↔ a ∈ l :=
  (jsToSorted_perm le l).mem_iff

theorem pairwise_jsInsertSorted (le : α → α → Bool)
    (htot : ∀ a b, le a b = true ∨ le b a = true)
    (htrans : ∀ a b c, le a b = true → le b c = true → le a c = true)
    (a : α) (l : List α) (hl : l.Pairwise (fun x y => le x y = true)) :
    (jsInsertSorted le a l).Pairwise (fun x y => le x y = true) := by
  induction l with
  | nil => simp [jsInsertSorted]
  | cons b l ih =>
    rcases List.pairwise_cons.mp hl with ⟨hb, hl'⟩
    unfold jsInsertSorted
    split_ifs with hba
    · refine List.pairwise_cons.mpr ⟨?_, ih hl'⟩
      intro x hx
      rcases List.mem_cons.mp (((jsInsertSorted_perm le a l).mem_iff).mp hx) with hxa | hxl
      · exact hxa ▸ hba
      · exact hb x hxl
    · have hab : le a b = true := by
        rcases htot a b with h | h
        · exact h
        · exact absurd h (by simpa using hba)
      refine List.pairwise_cons.mpr ⟨?_, hl⟩
      intro x hx
      rcases List.mem_cons.mp hx with hxb | hxl
      · exact hxb ▸ hab
      · exact htrans a b x hab (hb x hxl)

theorem pairwise_jsToSorted (le : α → α → Bool)
    (htot : ∀ a b, le a b = true ∨ le b a = true)
    (htrans : ∀ a b c, le a b = true → le b c = true → le a c = true)
    (l : List α) : (jsToSorted le l).Pairwise (fun x y => le x y = true) := by
  induction l with
  | nil => simp [jsToSorted]
  | cons a l ih => exact pairwise_jsInsertSorted le htot htrans a (jsToSorted le l) ih

/-- Skill-candidate status values (types.ts). -/
inductive CandidateStatus
  | candidate
  | planned
  | verified
  | rejected
deriving DecidableEq, Repr

/-- Execution classes (types.ts). -/
inductive ExecutionClass
  | read_only
  | reversible_write
  | destructive
deriving DecidableEq, Repr

/-- AutonomySkillCandidate (types.ts), with safety.executionClass and
safety.constraints flattened into the record. -/
structure SkillCandidateE where
  id : String
  sourceGapId : String
  name : String
  intent : String
  status : CandidateStatus
  priority : ℚ
  createdAt : ℚ
  updatedAt : ℚ
  executionClass : ExecutionClass
  constraints : List String
  tests : List String
deriving DecidableEq, Repr

/-- CanaryEvaluationInput (canary/manager.ts): none models a non-finite number. -/
structure CanaryEvaluationInput where
  errorRate : Option ℚ
  maxErrorRate : Option ℚ
  latencyP95Ms : Option ℚ
  baselineLatencyP95Ms : Option ℚ
  maxLatencyRegressionPct : Option ℚ
deriving Repr

/-- Reason tags for the canary result, one per template string of the source. -/
inductive CanaryReason
  | errorRateExceeded
  | latencyRegression
  | withinThresholds
deriving DecidableEq, Repr

/-- CanaryEvaluationResult (canary/manager.ts). -/
structure CanaryEvaluationResult where
  status : CanaryStatus
  reason : CanaryReason
  shouldRollback : Bool
deriving DecidableEq, Repr

/-- clampNonNegative from canary/manager.ts: Number.isFinite(v) ? max(0, v) : 0. -/
def clampNonNegative (v : Option ℚ) : ℚ :=
  match v with
  | none => 0
  | some q => max 0 q

/-- evaluateCanaryHealth from canary/manager.ts, branch for branch. -/
def evaluateCanaryHealth (input : CanaryEvaluationInput) : CanaryEvaluationResult :=
  let errorRate := clampNonNegative input.errorRate
  let maxErrorRate := clampNonNegative input.maxErrorRate
  if maxErrorRate < errorRate then
    ⟨.regressed, .errorRateExceeded, true⟩
  else
    let latencyP95Ms := clampNonNegative input.latencyP95Ms
    let baselineLatencyP95Ms := clampNonNegative input.baselineLatencyP95Ms
    let maxLatencyRegressionPct := clampNonNegative input.maxLatencyRegressionPct
    if 0 < baselineLatencyP95Ms ∧
        maxLatencyRegressionPct <
          (latencyP95Ms - baselineLatencyP95Ms) / baselineLatencyP95Ms * 100 then
      ⟨.regressed, .latencyRegression, true⟩
    else
      ⟨.healthy, .withinThresholds, false⟩

/-- Cycle status values for AutonomyCycleRecord (types.ts). -/
inductive CycleStatus
  | ok
  | error
  | skipped
deriving DecidableEq, Repr

/-- AutonomyCycleRecord slice used by the canary stage (ts, status, durationMs). -/
structure CycleRecordE where
  ts : ℚ
  status : CycleStatus
  durationMs : Option ℚ
deriving DecidableEq, Repr

/-- Ledger eventType values (ledger/types.ts). -/
inductive LedgerEventType
  | phase_enter
  | phase_exit
  | policy_denied
  | discovery_update
  | candidate_update
  | promotion
  | rollback
deriving DecidableEq, Repr

/-- Boolean test cycle.status !== skipped used by the canary and promote branches. -/
def cycleNotSkipped (c : CycleRecordE) : Bool :=
  match c.status with
  | .skipped => false
  | _ => true

/-- Boolean test cycle.status === error used by the canary and promote branches. -/
def cycleIsError (c : CycleRecordE) : Bool :=
  match c.status with
  | .error => true
  | _ => false

/-- The actionable const of the canary branch of processAugmentationCycle:
the last 5 recent cycles with skipped ones filtered out. -/
def canaryActionable (recentCycles : List CycleRecordE) : List CycleRecordE :=
  (jsTakeLast 5 recentCycles).filter cycleNotSkipped

/-- The errorRate const of the canary branch. -/
def canaryErrorRate (recentCycles : List CycleRecordE) : ℚ :=
  let actionable := canaryActionable recentCycles
  if 0 < actionable.length then
    ((actionable.filter cycleIsError).length : ℚ) / (actionable.length : ℚ)
  else 0

/-- The latencies const of the canary branch: finite durations sorted ascending. -/
def canaryLatencies (recentCycles : List CycleRecordE) : List ℚ :=
  jsToSorted (fun a b => a ≤ b) ((canaryActionable recentCycles).filterMap (fun c => c.durationMs))

/-- The latencyP95Ms const of the canary branch. -/
def canaryLatencyP95 (recentCycles : List CycleRecordE) : ℚ :=
  let latencies := canaryLatencies recentCycles
  if 0 < latencies.length then
    latencies.getD (min (latencies.length - 1) (jsFloor ((latencies.length : ℚ) * 0.95)).toNat) 0
  else 0

/-- The baselineLatencyP95Ms const of the canary branch (median by index). -/
def canaryBaselineLatency (recentCycles : List CycleRecordE) : ℚ :=
  let latencies := canaryLatencies recentCycles
  if 0 < latencies.length then latencies.getD ((latencies.length - 1) / 2) 0
  else 0

/-- Candidate demotion applied on rollback: every verified candidate becomes
rejected with a fresh updatedAt. -/
def demoteVerified (nowMs : ℚ) (c : SkillCandidateE) : SkillCandidateE :=
  if c.status = .verified then { c with status := .rejected, updatedAt := nowMs } else c

/-- The canary branch of processAugmentationCycle (runtime.ts): evaluates canary
health over the recent cycles with maxErrorRate 0.05 and maxLatencyRegressionPct
50, demotes verified candidates and appends a rollback ledger entry on
shouldRollback, otherwise appends a promotion ledger entry. -/
def canaryStageStep (recentCycles : List CycleRecordE) (candidates : List SkillCandidateE)
    (nowMs : ℚ) : List SkillCandidateE × LedgerEventType × CanaryEvaluationResult :=
  let canary := evaluateCanaryHealth
    { errorRate := some (canaryErrorRate recentCycles)
      maxErrorRate := some 0.05
      latencyP95Ms := some (canaryLatencyP95 recentCycles)
      baselineLatencyP95Ms := some (canaryBaselineLatency recentCycles)
      maxLatencyRegressionPct := some 50 }
  if canary.shouldRollback then
    (candidates.map (demoteVerified nowMs), .rollback, canary)
  else
    (candidates, .promotion, canary)

/-- C7: evaluateCanaryHealth clamps non-finite or negative inputs to 0, reports
regressed with shouldRollback exactly when the clamped error rate exceeds the
clamped maximum, or the baseline is positive and the relative latency regression
percentage exceeds the clamped maximum; in the canary stage a rollback result
demotes every verified candidate to rejected with a rollback ledger entry while
a healthy result appends a promotion ledger entry. -/
theorem canary_health_spec :
    (∀ input : CanaryEvaluationInput,
      ((evaluateCanaryHealth input).status = .regressed ↔
        clampNonNegative input.maxErrorRate < clampNonNegative input.errorRate ∨
          (0 < clampNonNegative input.baselineLatencyP95Ms ∧
            clampNonNegative input.maxLatencyRegressionPct <
              (clampNonNegative input.latencyP95Ms - clampNonNegative input.baselineLatencyP95Ms) /
                clampNonNegative input.baselineLatencyP95Ms * 100)) ∧
      ((evaluateCanaryHealth input).shouldRollback = true ↔
        (evaluateCanaryHealth input).status = .regressed)) ∧
    (∀ (recentCycles : List CycleRecordE) (candidates : List SkillCandidateE) (nowMs : ℚ),
      ((canaryStageStep recentCycles candidates nowMs).2.2.shouldRollback = true →
        (canaryStageStep recentCycles candidates nowMs).1 =
            candidates.map (demoteVerified nowMs) ∧
          (canaryStageStep recentCycles candidates nowMs).2.1 = .rollback) ∧
      ((canaryStageStep recentCycles candidates nowMs).2.2.shouldRollback = false →
        (canaryStageStep recentCycles candidates nowMs).1 = candidates ∧
          (canaryStageStep recentCycles candidates nowMs).2.1 = .promotion)) := by
  constructor
  · intro input
    simp only [evaluateCanaryHealth]
    split_ifs with h1 h2 <;> simp_all
  · intro recentCycles candidates nowMs
    simp only [canaryStageStep]
    split_ifs with h <;> simp_all

/-- Witness for canary_health_spec: an all-error cycle history triggers rollback
and demotes the verified candidate; an all-ok history yields promotion. -/
theorem canary_health_spec_witness :
    ((canaryStageStep [⟨0, .error, some 100⟩]
        [⟨"c1", "g1", "skill", "intent", .verified, 1, 0, 0, .reversible_write, [], []⟩]
        9).2.2.shouldRollback = true ∧
      (canaryStageStep [⟨0, .error, some 100⟩]
        [⟨"c1", "g1", "skill", "intent", .verified, 1, 0, 0, .reversible_write, [], []⟩]
        9).1 =
          [⟨"c1", "g1", "skill", "intent", .verified, 1, 0, 0, .reversible_write, [], []⟩].map
            (demoteVerified 9) ∧
      (canaryStageStep [⟨0, .error, some 100⟩]
        [⟨"c1", "g1", "skill", "intent", .verified, 1, 0, 0, .reversible_write, [], []⟩]
        9).2.1 = .rollback) ∧
    ((canaryStageStep [⟨0, .ok, some 100⟩] [] 9).2.2.shouldRollback = false ∧
      (canaryStageStep [⟨0, .ok, some 100⟩] [] 9).1 = [] ∧
      (canaryStageStep [⟨0, .ok, some 100⟩] [] 9).2.1 = .promotion) := by
  have e1 : (canaryStageStep [⟨0, .error, some 100⟩]
      [⟨"c1", "g1", "skill", "intent", .verified, 1, 0, 0, .reversible_write, [], []⟩]
      9).2.2.shouldRollback = true := by
    norm_num [canaryStageStep, evaluateCanaryHealth, clampNonNegative, canaryErrorRate,
      canaryActionable, canaryLatencies, canaryLatencyP95, canaryBaselineLatency,
      cycleNotSkipped, cycleIsError,
      jsTakeLast, jsToSorted, jsInsertSorted, jsFloor, List.filterMap, List.filter]
  have e2 : (canaryStageStep [⟨0, .ok, some 100⟩] [] 9).2.2.shouldRollback = false := by
    norm_num [canaryStageStep, evaluateCanaryHealth, clampNonNegative, canaryErrorRate,
      canaryActionable, canaryLatencies, canaryLatencyP95, canaryBaselineLatency,
      cycleNotSkipped, cycleIsError,
      jsTakeLast, jsToSorted, jsInsertSorted, jsFloor, List.filterMap, List.filter]
  have h1 := (canary_health_spec.2 [⟨0, .error, some 100⟩]
    [⟨"c1", "g1", "skill", "intent", .verified, 1, 0, 0, .reversible_write, [], []⟩] 9).1 e1
  have h2 := (canary_health_spec.2 [⟨0, .ok, some 100⟩] [] 9).2 e2
  exact ⟨⟨e1, h1.1, h1.2⟩, ⟨e2, h2.1, h2.2⟩⟩

/-- Gap categories (types.ts). -/
inductive GapCategory
  | capability
  | quality
  | reliability
  | safety
  | cost
  | latency
  | unknown
deriving DecidableEq, Repr

/-- Gap status values (types.ts); open is a Lean keyword, hence open_. -/
inductive GapStatus
  | open_
  | planned
  | addressed
  | suppressed
deriving DecidableEq, Repr

/-- Event sources (types.ts). -/
inductive EventSource
  | cron
  | webhook
  | email
  | subagent
  | manual
deriving DecidableEq, Repr

/-- AutonomyAugmentationGap (types.ts). JS numbers are rationals. -/
structure GapE where
  id : String
  key : String
  title : String
  category : GapCategory
  status : GapStatus
  severity : ℚ
  confidence : ℚ
  score : ℚ
  occurrences : ℚ
  firstSeenAt : ℚ
  lastSeenAt : ℚ
  lastSource : EventSource
  evidence : List String
deriving DecidableEq, Repr

/-- AutonomyDiscoverySignal (discovery/signal-normalizer.ts). -/
structure DiscoverySignal where
  id : String
  key : String
  title : String
  category : GapCategory
  severity : ℚ
  confidence : ℚ
  source : EventSource
  eventType : String
  ts : ℚ
  evidence : String
deriving DecidableEq, Repr

/-- Insertion-ordered string-keyed map update, modelling JS Map.set. -/
def assocUpdate (k : String) (v : α) : List (String × α) → List (String × α)
  | [] => [(k, v)]
  | (k', v') :: rest => if k' = k then (k, v) :: rest else (k', v') :: assocUpdate k v rest

/-- Lookup modelling JS Map.get. -/
def assocGet (k : String) : List (String × α) → Option α
  | [] => none
  | (k', v') :: rest => if k' = k then some v' else assocGet k rest

/-- computeGapScore from discovery/gap-registry.ts. -/
def computeGapScore (gap : GapE) (nowMs : ℚ) : ℤ :=
  let severityComponent := gap.severity * 0.55
  let confidenceComponent := gap.confidence * 100 * 0.25
  let freshnessHours := max 0 ((nowMs - gap.lastSeenAt) / 3600000)
  let freshnessComponent := jsClamp (24 - freshnessHours) 0 24 * 0.2
  let occurrenceComponent := min 20 gap.occurrences * 0.5
  jsRound (severityComponent + confidenceComponent + freshnessComponent + occurrenceComponent)

/-- createGapFromSignal from discovery/gap-registry.ts; the sha1-derived id is
supplied by the environmental hashId function. -/
def createGapFromSignal (hashId : String → String) (signal : DiscoverySignal) : GapE :=
  let ts : ℚ := (jsFloor signal.ts : ℚ)
  { id := hashId signal.key
    key := signal.key
    title := signal.title
    category := signal.category
    status := .open_
    severity := signal.severity
    confidence := signal.confidence
    score := 0
    occurrences := 1
    firstSeenAt := ts
    lastSeenAt := ts
    lastSource := signal.source
    evidence := jsTakeLast 10 [signal.evidence] }

/-- The per-signal update branch of upsertGapRegistry for an existing gap. -/
def blendGapWithSignal (existing : GapE) (signal : DiscoverySignal) : GapE :=
  { existing with
    title := signal.title
    category := signal.category
    occurrences := existing.occurrences + 1
    lastSeenAt := max existing.lastSeenAt ((jsFloor signal.ts : ℤ) : ℚ)
    lastSource := signal.source
    severity :=
      jsClamp ((jsRound ((existing.severity * 0.65 + signal.severity * 0.35) * 100) : ℚ) / 100)
        0 100
    confidence := jsClamp (existing.confidence * 0.7 + signal.confidence * 0.3) 0 1
    evidence := jsTakeLast 10 (existing.evidence ++ [signal.evidence]) }

/-- The comparator of upsertGapRegistry as a boolean less-or-equal: a sorts
weakly before b under descending score, then descending lastSeenAt, then
ascending key. -/
def gapLE (a b : GapE) : Bool :=
  if b.score < a.score then true
  else if a.score < b.score then false
  else if b.lastSeenAt < a.lastSeenAt then true
  else if a.lastSeenAt < b.lastSeenAt then false
  else decide (a.key ≤ b.key)

/-- upsertGapRegistry from discovery/gap-registry.ts: seed the insertion-ordered
map from the existing gaps, fold the signals over it, rescore, sort and cap. -/
def upsertGapRegistry (hashId : String → String) (gaps : List GapE)
    (signals : List DiscoverySignal) (nowMs : ℚ) : List GapE :=
  let byKey0 := gaps.foldl
    (fun acc gap => assocUpdate gap.key { gap with evidence := jsTakeLast 10 gap.evidence } acc) []
  let byKey := signals.foldl
    (fun acc signal =>
      match assocGet signal.key acc with
      | none => assocUpdate signal.key (createGapFromSignal hashId signal) acc
      | some existing => assocUpdate signal.key (blendGapWithSignal existing signal) acc)
    byKey0
  ((jsToSorted gapLE ((byKey.map Prod.snd).map
    (fun gap => { gap with score := (computeGapScore gap nowMs : ℚ) }))).take 200)

/-- The ranking order the spec states: descending score, then descending
lastSeenAt, then ascending key. -/
def gapOrderSpec (a b : GapE) : Prop :=
  b.score < a.score ∨
    (a.score = b.score ∧
      (b.lastSeenAt < a.lastSeenAt ∨ (a.lastSeenAt = b.lastSeenAt ∧ a.key ≤ b.key)))

theorem gapLE_iff (a b : GapE) : gapLE a b = true ↔ gapOrderSpec a b := by
  unfold gapLE gapOrderSpec
  split_ifs with h1 h2 h3 h4
  · exact iff_of_true rfl (Or.inl h1)
  · refine iff_of_false (by simp) ?_
    rintro (h | ⟨hs, -⟩)
    · exact h1 h
    · exact (ne_of_lt h2) hs
  · have hs : a.score = b.score := le_antisymm (not_lt.mp h1) (not_lt.mp h2)
    exact iff_of_true rfl (Or.inr ⟨hs, Or.inl h3⟩)
  · refine iff_of_false (by simp) ?_
    rintro (h | ⟨-, h | ⟨ht, -⟩⟩)
    · exact h1 h
    · exact h3 h
    · exact (ne_of_lt h4) ht
  · have hs : a.score = b.score := le_antisymm (not_lt.mp h1) (not_lt.mp h2)
    have ht : a.lastSeenAt = b.lastSeenAt := le_antisymm (not_lt.mp h3) (not_lt.mp h4)
    rw [decide_eq_true_eq]
    constructor
    · intro hk
      exact Or.inr ⟨hs, Or.inr ⟨ht, hk⟩⟩
    · rintro (h | ⟨-, h | ⟨-, hk⟩⟩)
      · exact absurd h h1
      · exact absurd h h3
      · exact hk

theorem gapLE_total (a b : GapE) : gapLE a b = true ∨ gapLE b a = true := by
  rw [gapLE_iff, gapLE_iff]
  unfold gapOrderSpec
  rcases lt_trichotomy a.score b.score with h | h | h
  · exact Or.inr (Or.inl h)
  · rcases lt_trichotomy a.lastSeenAt b.lastSeenAt with h' | h' | h'
    · exact Or.inr (Or.inr ⟨h.symm, Or.inl h'⟩)
    · rcases le_total a.key b.key with hk | hk
      · exact Or.inl (Or.inr ⟨h, Or.inr ⟨h', hk⟩⟩)
      · exact Or.inr (Or.inr ⟨h.symm, Or.inr ⟨h'.symm, hk⟩⟩)
    · exact Or.inl (Or.inr ⟨h, Or.inl h'⟩)
  · exact Or.inl (Or.inl h)

theorem gapLE_trans (a b c : GapE) (hab : gapLE a b = true) (hbc : gapLE b c = true) :
    gapLE a c = true := by
  rw [gapLE_iff] at hab hbc ⊢
  unfold gapOrderSpec at hab hbc ⊢
  rcases hab with h | ⟨hs, h⟩ <;> rcases hbc with h' | ⟨hs', h'⟩
  · exact Or.inl (by linarith)
  · exact Or.inl (by linarith)
  · exact Or.inl (by linarith)
  · refine Or.inr ⟨by linarith, ?_⟩
    rcases h with h | ⟨ht, hk⟩ <;> rcases h' with h' | ⟨ht', hk'⟩
    · exact Or.inl (by linarith)
    · exact Or.inl (by linarith)
    · exact Or.inl (by linarith)
    · exact Or.inr ⟨by linarith, le_trans hk hk'⟩

/-- C9: every gap returned by upsertGapRegistry carries
score = round(0.55·severity + 0.25·confidence·100 + 0.2·clip(24 − freshnessHours, 0, 24)
+ 0.5·min(20, occurrences)) computed at the supplied now with
freshnessHours = max(0, (now − lastSeenAt) / 3600000); the result is sorted by
descending score, then descending lastSeenAt, then ascending key, and holds at
most 200 gaps. -/
theorem gap_registry_spec (hashId : String → String) (gaps : List GapE)
    (signals : List DiscoverySignal) (nowMs : ℚ) :
    (∀ g ∈ upsertGapRegistry hashId gaps signals nowMs,
      g.score = (jsRound (0.55 * g.severity + 0.25 * (g.confidence * 100) +
        0.2 * jsClamp (24 - max 0 ((nowMs - g.lastSeenAt) / 3600000)) 0 24 +
        0.5 * min 20 g.occurrences) : ℚ)) ∧
    (upsertGapRegistry hashId gaps signals nowMs).Pairwise gapOrderSpec ∧
    (upsertGapRegistry hashId gaps signals nowMs).length ≤ 200 := by
  refine ⟨?_, ?_, ?_⟩
  · intro g hg
    unfold upsertGapRegistry at hg
    have hg' := (jsToSorted_perm gapLE _).mem_iff.mp (List.mem_of_mem_take hg)
    rcases List.mem_map.mp hg' with ⟨g0, _, rfl⟩
    show (computeGapScore g0 nowMs : ℚ) = _
    unfold computeGapScore
    congr 1
    ring
  · unfold upsertGapRegistry
    refine List.Pairwise.sublist (List.take_sublist _ _) ?_
    refine List.Pairwise.imp (fun h => (gapLE_iff _ _).mp h) ?_
    exact pairwise_jsToSorted gapLE gapLE_total gapLE_trans _
  · unfold upsertGapRegistry
    simp [List.length_take_le]

/-- Concrete signal for the gap-registry witness. -/
def gapRegistryWitnessSignal : DiscoverySignal :=
  ⟨"sig-1", "manual:queue-overflow", "Queue overflow", .reliability, 85, 0.9, .manual,
    "autonomy.queue.overflow", 1000, "evidence-1"⟩

/-- The gap the witness drain produces. -/
def gapRegistryWitnessGap : GapE :=
  ⟨"gap-id", "manual:queue-overflow", "Queue overflow", .reliability, .open_, 85, 0.9, 75, 1,
    1000, 1000, .manual, ["evidence-1"]⟩

/-- Witness for gap_registry_spec: one fresh signal produces one open gap whose
stored score satisfies the claimed formula (value 75 at now = lastSeenAt). -/
theorem gap_registry_spec_witness :
    gapRegistryWitnessGap ∈
      upsertGapRegistry (fun _ => "gap-id") [] [gapRegistryWitnessSignal] 1000 ∧
    gapRegistryWitnessGap.score =
      (jsRound (0.55 * gapRegistryWitnessGap.severity +
        0.25 * (gapRegistryWitnessGap.confidence * 100) +
        0.2 * jsClamp (24 - max 0 ((1000 - gapRegistryWitnessGap.lastSeenAt) / 3600000)) 0 24 +
        0.5 * min 20 gapRegistryWitnessGap.occurrences) : ℚ) := by
  have hmem : gapRegistryWitnessGap ∈
      upsertGapRegistry (fun _ => "gap-id") [] [gapRegistryWitnessSignal] 1000 := by
    norm_num [upsertGapRegistry, gapRegistryWitnessSignal, gapRegistryWitnessGap,
      createGapFromSignal, computeGapScore, assocUpdate, assocGet, jsToSorted, jsInsertSorted,
      jsTakeLast, jsRound, jsFloor, jsClamp]
  exact ⟨hmem,
    (gap_registry_spec (fun _ => "gap-id") [] [gapRegistryWitnessSignal] 1000).1
      gapRegistryWitnessGap hmem⟩

/-- Structural drop-while used to model String.prototype.trim. -/
def jsDropWhile (p : Char → Bool) : List Char → List Char
  | [] => []
  | c :: cs => if p c then jsDropWhile p cs else c :: cs

/-- JS String.prototype.trim over the character list of the string. -/
def jsTrimString (s : String) : String :=
  ⟨(jsDropWhile Char.isWhitespace
      ((jsDropWhile Char.isWhitespace s.data.reverse)).reverse).reverse.reverse⟩

/-- JSON values as produced by JSON.parse: JSON numbers are always finite and
modelled as rationals. -/
inductive Json where
  | null
  | bool (b : Bool)
  | num (q : ℚ)
  | str (s : String)
  | arr (elems : List Json)
  | obj (fields : List (String × Json))

/-- JS property access parsed.k: undefined on anything without the field. -/
def Json.getField : Json → String → Option Json
  | .obj fields, k => assocGet k fields
  | _, _ => none

/-- normalizeOptionalString from the store: non-strings become undefined,
strings are trimmed and empty results dropped. -/
def normalizeOptionalString (v : Option Json) : Option String :=
  match v with
  | some (.str s) => if jsTrimString s = "" then none else some (jsTrimString s)
  | _ => none

/-- On-disk run-lock payload after parsing (runtime.ts parseRunLock). -/
structure RunLock where
  token : String
  expiresAt : ℚ
deriving DecidableEq, Repr

/-- In-memory activeRuns entry (runtime.ts). -/
structure ActiveRunEntry where
  token : String
  expiresAt : ℚ
deriving DecidableEq, Repr

/-- parseRunLock from runtime.ts over the parse outcome of the lock file;
none models an unreadable, blank or malformed file. -/
def parseRunLock (raw : Option Json) : Option RunLock :=
  match raw with
  | none => none
  | some j =>
    match j.getField "token", j.getField "expiresAt" with
    | some (.str token), some (.num expiresAt) =>
      if jsTrimString token = "" then none
      else some ⟨token, ((max 0 (jsFloor expiresAt) : ℤ) : ℚ)⟩
    | _, _ => none

/-- Effect of releaseAutonomyRunLock: whether the in-memory entry is removed and
whether the lock file is deleted. -/
structure ReleaseLockResult where
  removeInMemory : Bool
  deleteFile : Bool
deriving DecidableEq, Repr

/-- releaseAutonomyRunLock from runtime.ts: the in-memory entry is removed when
its token matches; the file is removed when it is unparsable, its token matches,
or its expiry is not in the future. -/
def releaseAutonomyRunLock (active : Option ActiveRunEntry) (fileRaw : Option Json)
    (token : String) (nowMs : ℚ) : ReleaseLockResult :=
  let removeInMemory :=
    match active with
    | some entry => decide (entry.token = token)
    | none => false
  let deleteFile :=
    match parseRunLock fileRaw with
    | none => true
    | some lock => decide (lock.token = token ∨ lock.expiresAt ≤ nowMs)
  ⟨removeInMemory, deleteFile⟩

/-- C6 counterexample: at time 10 a lock file holding a different token
"other-token" with expiresAt 5 (expired) is deleted, refuting deletion iff the
stored token matches the caller's token. -/
theorem release_lock_counterexample :
    parseRunLock (some (.obj [("token", .str "other-token"), ("acquiredAt", .num 0),
        ("expiresAt", .num 5)])) = some ⟨"other-token", 5⟩ ∧
    "other-token" ≠ "caller-token" ∧
    (releaseAutonomyRunLock none
      (some (.obj [("token", .str "other-token"), ("acquiredAt", .num 0),
        ("expiresAt", .num 5)]))
      "caller-token" 10).deleteFile = true := by
  refine ⟨?_, by decide, ?_⟩ <;>
    · simp [releaseAutonomyRunLock, parseRunLock, Json.getField, assocGet,
        jsTrimString, jsDropWhile, jsFloor]
      try norm_num

/-- C6 amended: releaseAutonomyRunLock deletes the run.lock file iff the file is
missing or unparsable, or the stored token matches the caller token, or the
stored lock has expired (expiresAt ≤ now); an unexpired lock with a different
token is left in place; the in-memory entry is removed iff it exists and its
token matches. -/
theorem release_lock_amended (active : Option ActiveRunEntry) (fileRaw : Option Json)
    (token : String) (nowMs : ℚ) :
    ((releaseAutonomyRunLock active fileRaw token nowMs).deleteFile = true ↔
      parseRunLock fileRaw = none ∨
        (∃ lock, parseRunLock fileRaw = some lock ∧
          (lock.token = token ∨ lock.expiresAt ≤ nowMs))) ∧
    ((releaseAutonomyRunLock active fileRaw token nowMs).removeInMemory = true ↔
      ∃ entry, active = some entry ∧ entry.token = token) := by
  unfold releaseAutonomyRunLock
  constructor
  · cases h : parseRunLock fileRaw with
    | none => simp [h]
    | some lock => simp [h]
  · cases active with
    | none => simp
    | some entry => simp

/-- AutonomyEvent as materialized by drainAutonomyEvents (store). -/
structure AutonomyEventE where
  id : String
  source : EventSource
  type : String
  ts : ℚ
  dedupeKey : Option String
  payload : Option Json

/-- Drain-relevant slice of AutonomyState. -/
structure DrainStateE where
  dedupe : List (String × ℚ)
  dedupeWindowMs : ℚ
  maxQueuedEvents : ℚ

/-- clampInt from the store: Number.isFinite(v) ? max(min, min(max, floor v)) :
fallback, with the fallback returned unchanged. -/
def clampIntOr (value : Option ℚ) (lo hi : ℤ) (fallback : ℚ) : ℚ :=
  match value with
  | none => fallback
  | some q => ((max lo (min hi (jsFloor q)) : ℤ) : ℚ)

/-- The admission test of drainAutonomyEvents: a queue line is processed further
only when JSON.parse succeeded and produced a JS object (arrays included). -/
def lineIsValidObject : Option Json → Bool
  | some (.obj _) => true
  | some (.arr _) => true
  | _ => false

/-- The source coercion of drainAutonomyEvents: anything but the five literal
source strings silently becomes manual. -/
def coerceEventSource : Option Json → EventSource
  | some (.str "cron") => .cron
  | some (.str "webhook") => .webhook
  | some (.str "email") => .email
  | some (.str "subagent") => .subagent
  | some (.str "manual") => .manual
  | _ => .manual

/-- Number.isFinite(v) ? v : fallback over a parsed JSON field. -/
def jsonNumOr (v : Option Json) (fallback : ℚ) : ℚ :=
  match v with
  | some (.num q) => q
  | _ => fallback

/-- The payload filter of drainAutonomyEvents: plain objects only. -/
def jsonPayload : Option Json → Option Json
  | some (.obj fields) => some (.obj fields)
  | _ => none

/-- The event record constructed by drainAutonomyEvents for one parsed line;
freshId stands in for the environmental crypto.randomUUID(). -/
def buildDrainEvent (freshId : String) (nowMs : ℚ) (parsed : Json) : AutonomyEventE :=
  { id := (normalizeOptionalString (parsed.getField "id")).getD freshId
    source := coerceEventSource (parsed.getField "source")
    type := (normalizeOptionalString (parsed.getField "type")).getD "event"
    ts := jsonNumOr (parsed.getField "ts") nowMs
    dedupeKey := normalizeOptionalString (parsed.getField "dedupeKey")
    payload := jsonPayload (parsed.getField "payload") }

/-- The string the five source values serialize to. -/
def sourceString : EventSource → String
  | .cron => "cron"
  | .webhook => "webhook"
  | .email => "email"
  | .subagent => "subagent"
  | .manual => "manual"

/-- resolveEventDedupeKey from the store: explicit dedupeKey, else event id,
else source:type. -/
def resolveEventDedupeKey (event : AutonomyEventE) : String :=
  let dk := match event.dedupeKey with
    | some k => jsTrimString k
    | none => ""
  if dk ≠ "" then dk
  else if jsTrimString event.id ≠ "" then jsTrimString event.id
  else sourceString event.source ++ ":" ++ event.type

/-- The dedupe-window test of the drain loop: the resolved key was admitted at a
finite time seenAt with nowMs − seenAt < dedupeWindowMs. -/
def dedupeHit (dedupe : List (String × ℚ)) (key : String) (nowMs windowMs : ℚ) : Bool :=
  match assocGet key dedupe with
  | none => false
  | some seenAt => decide (nowMs - seenAt < windowMs)

/-- pruneDedupeMap from the store: drop entries older than now − max(3·window,
window), then cap at 5000 keys keeping the most recent timestamps. -/
def pruneDedupeMap (dedupe : List (String × ℚ)) (windowMs nowMs : ℚ) :
    List (String × ℚ) :=
  let minTs := nowMs - max (windowMs * 3) windowMs
  let kept := dedupe.filter (fun kv => decide (minTs ≤ kv.2))
  let entries := jsToSorted (fun a b => decide (b.2 ≤ a.2)) kept
  if entries.length ≤ 5000 then kept
  else
    let allowed := (entries.take 5000).map Prod.fst
    kept.filter (fun kv => allowed.contains kv.1)

/-- Accumulator of the drain loop; idx counts processed lines to feed freshId. -/
structure DrainAcc where
  selected : List AutonomyEventE
  remainingEvents : List AutonomyEventE
  droppedDuplicates : Nat
  droppedInvalid : Nat
  dedupe : List (String × ℚ)
  idx : Nat

/-- One iteration of the for-loop of drainAutonomyEvents. -/
def drainStep (windowMs maxEvents nowMs : ℚ) (freshId : Nat → String)
    (acc : DrainAcc) (line : Option Json) : DrainAcc :=
  if lineIsValidObject line = false then
    { acc with droppedInvalid := acc.droppedInvalid + 1, idx := acc.idx + 1 }
  else
    let event := buildDrainEvent (freshId acc.idx) nowMs (line.getD .null)
    if maxEvents ≤ (acc.selected.length : ℚ) then
      { acc with remainingEvents := acc.remainingEvents ++ [event], idx := acc.idx + 1 }
    else
      let key := resolveEventDedupeKey event
      if dedupeHit acc.dedupe key nowMs windowMs then
        { acc with droppedDuplicates := acc.droppedDuplicates + 1, idx := acc.idx + 1 }
      else
        { acc with
          selected := acc.selected ++ [event]
          dedupe := assocUpdate key nowMs acc.dedupe
          idx := acc.idx + 1 }

/-- Result record of drainAutonomyEvents; remainingEvents is the queue written
back, remaining its length. -/
structure DrainResultE where
  events : List AutonomyEventE
  droppedDuplicates : Nat
  droppedInvalid : Nat
  droppedOverflow : Nat
  remainingEvents : List AutonomyEventE
  dedupe : List (String × ℚ)

/-- Hard cap of retained queue lines. -/
def MAX_EVENT_QUEUE_LINES : Nat := 5000

/-- drainAutonomyEvents from the store over the parsed queue lines: a none line
is one JSON.parse rejected. Blank files are the empty queue. -/
def drainAutonomyEvents (state : DrainStateE) (queue : List (Option Json))
    (maxEvents : Option ℚ) (nowMs : ℚ) (freshId : Nat → String) : DrainResultE :=
  let maxE := clampIntOr maxEvents 1 500 state.maxQueuedEvents
  if queue.isEmpty then
    { events := []
      droppedDuplicates := 0
      droppedInvalid := 0
      droppedOverflow := 0
      remainingEvents := []
      dedupe := pruneDedupeMap state.dedupe state.dedupeWindowMs nowMs }
  else
    let droppedOverflow := queue.length - MAX_EVENT_QUEUE_LINES
    let lines :=
      if MAX_EVENT_QUEUE_LINES < queue.length then jsTakeLast MAX_EVENT_QUEUE_LINES queue
      else queue
    let acc := lines.foldl (drainStep state.dedupeWindowMs maxE nowMs freshId)
      ⟨[], [], 0, 0, state.dedupe, 0⟩
    { events := acc.selected
      droppedDuplicates := acc.droppedDuplicates
      droppedInvalid := acc.droppedInvalid
      droppedOverflow := droppedOverflow
      remainingEvents := acc.remainingEvents
      dedupe := pruneDedupeMap acc.dedupe state.dedupeWindowMs nowMs }

theorem assocGet_assocUpdate (k : String) (v : α) (l : List (String × α)) :
    assocGet k (assocUpdate k v l) = some v := by
  induction l with
  | nil => simp [assocUpdate, assocGet]
  | cons kv rest ih =>
    unfold assocUpdate
    split_ifs with h
    · simp [assocGet]
    · simp only [assocGet, ih]
      rw [if_neg h]

/-- One enqueued manual task.created line of the C5 scenario. -/
def c5Line (id dk : String) : Option Json :=
  some (.obj [("id", .str id), ("source", .str "manual"), ("type", .str "task.created"),
    ("ts", .num 999000), ("dedupeKey", .str dk)])

/-- Three t-1 lines then two t-2 lines. -/
def c5Queue : List (Option Json) :=
  [c5Line "e1" "t-1", c5Line "e2" "t-1", c5Line "e3" "t-1", c5Line "e4" "t-2",
    c5Line "e5" "t-2"]

/-- Fresh state with the default one-hour dedupe window. -/
def c5State : DrainStateE := ⟨[], 3600000, 100⟩

/-- C5: a queued event whose resolved dedupe key was admitted within
dedupeWindowMs of now is dropped as a duplicate and admission records
dedupe[key] = now; draining three t-1 and two t-2 events with maxEvents 10 at
now 1000000 admits exactly one t-1 then one t-2 event with droppedDuplicates 3. -/
theorem drain_dedupe_spec :
    (∀ (dedupe : List (String × ℚ)) (key : String) (nowMs windowMs : ℚ),
      dedupeHit dedupe key nowMs windowMs = true ↔
        ∃ seenAt, assocGet key dedupe = some seenAt ∧ nowMs < seenAt + windowMs) ∧
    (∀ (windowMs maxEvents nowMs : ℚ) (freshId : Nat → String) (acc : DrainAcc) (j : Json),
      lineIsValidObject (some j) = true →
      (acc.selected.length : ℚ) < maxEvents →
      (dedupeHit acc.dedupe
          (resolveEventDedupeKey (buildDrainEvent (freshId acc.idx) nowMs j)) nowMs windowMs =
            true →
        drainStep windowMs maxEvents nowMs freshId acc (some j) =
          { acc with droppedDuplicates := acc.droppedDuplicates + 1, idx := acc.idx + 1 }) ∧
      (dedupeHit acc.dedupe
          (resolveEventDedupeKey (buildDrainEvent (freshId acc.idx) nowMs j)) nowMs windowMs =
            false →
        drainStep windowMs maxEvents nowMs freshId acc (some j) =
          { acc with
            selected := acc.selected ++ [buildDrainEvent (freshId acc.idx) nowMs j]
            dedupe := assocUpdate
              (resolveEventDedupeKey (buildDrainEvent (freshId acc.idx) nowMs j)) nowMs
              acc.dedupe
            idx := acc.idx + 1 } ∧
        assocGet (resolveEventDedupeKey (buildDrainEvent (freshId acc.idx) nowMs j))
          (drainStep windowMs maxEvents nowMs freshId acc (some j)).dedupe = some nowMs)) ∧
    ((drainAutonomyEvents c5State c5Queue (some 10) 1000000 (fun _ => "uuid")).events.map
        (fun e => e.dedupeKey) = [some "t-1", some "t-2"] ∧
      (drainAutonomyEvents c5State c5Queue (some 10) 1000000
        (fun _ => "uuid")).droppedDuplicates = 3 ∧
      (drainAutonomyEvents c5State c5Queue (some 10) 1000000
        (fun _ => "uuid")).droppedInvalid = 0 ∧
      (drainAutonomyEvents c5State c5Queue (some 10) 1000000
        (fun _ => "uuid")).remainingEvents = []) := by
  refine ⟨?_, ?_, ?_⟩
  · intro dedupe key nowMs windowMs
    unfold dedupeHit
    cases h : assocGet key dedupe with
    | none => simp
    | some seenAt =>
      simp only [decide_eq_true_eq]
      constructor
      · intro hlt
        exact ⟨seenAt, rfl, by linarith⟩
      · rintro ⟨s, hs, hlt⟩
        cases hs
        linarith
  · intro windowMs maxEvents nowMs freshId acc j hvalid hcap
    constructor
    · intro hhit
      unfold drainStep
      rw [hvalid]
      simp only [Bool.true_eq_false, if_false, Option.getD_some]
      rw [if_neg (not_le.mpr hcap), if_pos hhit]
    · intro hmiss
      have hstep : drainStep windowMs maxEvents nowMs freshId acc (some j) =
          { acc with
            selected := acc.selected ++ [buildDrainEvent (freshId acc.idx) nowMs j]
            dedupe := assocUpdate
              (resolveEventDedupeKey (buildDrainEvent (freshId acc.idx) nowMs j)) nowMs
              acc.dedupe
            idx := acc.idx + 1 } := by
        unfold drainStep
        rw [hvalid]
        simp only [Bool.true_eq_false, if_false, Option.getD_some]
        rw [if_neg (not_le.mpr hcap), if_neg (by simp [hmiss])]
      exact ⟨hstep, by rw [hstep]; exact assocGet_assocUpdate _ _ _⟩
  · refine ⟨?_, ?_, ?_, ?_⟩ <;>
    · simp [drainAutonomyEvents, c5State, c5Queue, c5Line, drainStep, buildDrainEvent,
        lineIsValidObject, coerceEventSource, jsonNumOr, jsonPayload, normalizeOptionalString,
        Json.getField, assocGet, assocUpdate, resolveEventDedupeKey, dedupeHit, sourceString,
        jsTrimString, jsDropWhile, clampIntOr, jsFloor, jsTakeLast, pruneDedupeMap, jsToSorted,
        jsInsertSorted, MAX_EVENT_QUEUE_LINES]
      try norm_num

/-- Queue line for the drain witness: a manual event keyed t-1. -/
def drainWitnessLine : Json :=
  .obj [("id", .str "e9"), ("source", .str "manual"), ("type", .str "task.created"),
    ("ts", .num 999500), ("dedupeKey", .str "t-1")]

/-- Accumulator for the drain witness: t-1 admitted 1000 ms ago. -/
def drainWitnessAcc : DrainAcc := ⟨[], [], 0, 0, [("t-1", 999000)], 0⟩

/-- Witness for drain_dedupe_spec: with key t-1 seen at 999000 and a one-hour
window, the t-1 line at now 1000000 is dropped as a duplicate. -/
theorem drain_dedupe_spec_witness :
    drainStep 3600000 10 1000000 (fun _ => "uuid") drainWitnessAcc (some drainWitnessLine) =
      ⟨[], [], 1, 0, [("t-1", 999000)], 1⟩ := by
  have hvalid : lineIsValidObject (some drainWitnessLine) = true := rfl
  have hcap : ((drainWitnessAcc.selected.length : ℚ)) < 10 := by norm_num [drainWitnessAcc]
  have hhit : dedupeHit drainWitnessAcc.dedupe
      (resolveEventDedupeKey
        (buildDrainEvent ((fun _ => "uuid") drainWitnessAcc.idx) 1000000 drainWitnessLine))
      1000000 3600000 = true := by
    simp [dedupeHit, drainWitnessAcc, drainWitnessLine, resolveEventDedupeKey, buildDrainEvent,
      normalizeOptionalString, Json.getField, assocGet, jsTrimString, jsDropWhile]
    norm_num
  exact (drain_dedupe_spec.2.1 3600000 10 1000000 (fun _ => "uuid") drainWitnessAcc
    drainWitnessLine hvalid hcap).1 hhit

theorem drainStep_droppedInvalid (windowMs maxEvents nowMs : ℚ) (freshId : Nat → String)
    (acc : DrainAcc) (line : Option Json) :
    (drainStep windowMs maxEvents nowMs freshId acc line).droppedInvalid =
      acc.droppedInvalid + (if lineIsValidObject line = false then 1 else 0) := by
  unfold drainStep
  dsimp only
  split_ifs <;> rfl

theorem drainFold_droppedInvalid (windowMs maxEvents nowMs : ℚ) (freshId : Nat → String)
    (lines : List (Option Json)) (acc : DrainAcc) :
    ((lines.foldl (drainStep windowMs maxEvents nowMs freshId) acc)).droppedInvalid =
      acc.droppedInvalid + lines.countP (fun l => !lineIsValidObject l) := by
  induction lines generalizing acc with
  | nil => simp
  | cons l rest ih =>
    rw [List.foldl_cons, ih, drainStep_droppedInvalid, List.countP_cons]
    by_cases h : lineIsValidObject l = false <;> simp [h] <;> omega

/-- Queue for the C10 example: a malformed line, a scalar line, an object line
with no source field, and an object line whose source is a number. -/
def c10Queue : List (Option Json) :=
  [none, some (.num 3),
    some (.obj [("type", .str "task.created"), ("dedupeKey", .str "a")]),
    some (.obj [("type", .str "task.created"), ("source", .num 5), ("dedupeKey", .str "b")])]

/-- C10: only lines that fail to parse as a JS object count as droppedInvalid;
every object line is processed as an event with its source silently coerced to
manual when absent or not one of the five source literals; concretely a queue of
one malformed line, one scalar line and two objects with missing or numeric
source yields droppedInvalid 2 and two admitted manual events. -/
theorem drain_invalid_source_spec :
    (∀ (state : DrainStateE) (queue : List (Option Json)) (maxEvents : Option ℚ)
        (nowMs : ℚ) (freshId : Nat → String),
      (drainAutonomyEvents state queue maxEvents nowMs freshId).droppedInvalid =
        (if MAX_EVENT_QUEUE_LINES < queue.length then jsTakeLast MAX_EVENT_QUEUE_LINES queue
          else queue).countP (fun l => !lineIsValidObject l)) ∧
    (∀ fields, lineIsValidObject (some (.obj fields)) = true) ∧
    (∀ v : Option Json,
      v = some (.str "cron") ∨ v = some (.str "webhook") ∨ v = some (.str "email") ∨
        v = some (.str "subagent") ∨ coerceEventSource v = .manual) ∧
    ((drainAutonomyEvents c5State c10Queue (some 10) 1000000
        (fun _ => "uuid")).droppedInvalid = 2 ∧
      (drainAutonomyEvents c5State c10Queue (some 10) 1000000 (fun _ => "uuid")).events.map
        (fun e => sourceString e.source) = ["manual", "manual"] ∧
      (drainAutonomyEvents c5State c10Queue (some 10) 1000000 (fun _ => "uuid")).events.map
        (fun e => e.dedupeKey) = [some "a", some "b"]) := by
  refine ⟨?_, fun fields => rfl, ?_, ?_⟩
  · intro state queue maxEvents nowMs freshId
    unfold drainAutonomyEvents
    by_cases hq : queue.isEmpty
    · rw [if_pos hq]
      rw [List.isEmpty_iff.mp hq]
      simp
    · rw [if_neg hq]
      simp only [drainFold_droppedInvalid]
      simp
  · intro v
    match v with
    | none => exact Or.inr (Or.inr (Or.inr (Or.inr rfl)))
    | some .null => exact Or.inr (Or.inr (Or.inr (Or.inr rfl)))
    | some (.bool b) => exact Or.inr (Or.inr (Or.inr (Or.inr rfl)))
    | some (.num q) => exact Or.inr (Or.inr (Or.inr (Or.inr rfl)))
    | some (.arr xs) => exact Or.inr (Or.inr (Or.inr (Or.inr rfl)))
    | some (.obj fs) => exact Or.inr (Or.inr (Or.inr (Or.inr rfl)))
    | some (.str s) =>
      by_cases h1 : s = "cron"
      · exact Or.inl (by rw [h1])
      by_cases h2 : s = "webhook"
      · exact Or.inr (Or.inl (by rw [h2]))
      by_cases h3 : s = "email"
      · exact Or.inr (Or.inr (Or.inl (by rw [h3])))
      by_cases h4 : s = "subagent"
      · exact Or.inr (Or.inr (Or.inr (Or.inl (by rw [h4]))))
      refine Or.inr (Or.inr (Or.inr (Or.inr ?_)))
      unfold coerceEventSource
      split <;> first | rfl | simp_all
  · refine ⟨?_, ?_, ?_⟩ <;>
    · simp [drainAutonomyEvents, c5State, c10Queue, drainStep, buildDrainEvent,
        lineIsValidObject, coerceEventSource, jsonNumOr, jsonPayload, normalizeOptionalString,
        Json.getField, assocGet, assocUpdate, resolveEventDedupeKey, dedupeHit, sourceString,
        jsTrimString, jsDropWhile, clampIntOr, jsFloor, jsTakeLast, pruneDedupeMap, jsToSorted,
        jsInsertSorted, MAX_EVENT_QUEUE_LINES]
      try norm_num

/-- Whether pat occurs at the head of text. -/
def charListHasLead : List Char → List Char → Bool
  | [], _ => true
  | _ :: _, [] => false
  | p :: ps, c :: cs => p == c && charListHasLead ps cs

/-- Whether pat occurs anywhere in text. -/
def charListContains : List Char → List Char → Bool
  | [], pat => pat.isEmpty
  | c :: rest, pat => charListHasLead pat (c :: rest) || charListContains rest pat

/-- JS String.prototype.includes over the character lists of the strings. -/
def strContains (s pat : String) : Bool := charListContains s.data pat.data

/-- SkillVerificationReport from skill-forge/verify.ts. -/
structure SkillVerificationReport where
  candidateId : String
  skillName : String
  ok : Bool
  failures : List String
deriving DecidableEq, Repr

/-- verifySkillContent from skill-forge/verify.ts: the three section headers,
then every declared constraint and every declared test must occur literally. -/
def verifySkillContent (skillName : String) (content : String)
    (candidate : SkillCandidateE) : SkillVerificationReport :=
  let failures :=
    (if strContains content "## Purpose" = false then ["missing purpose section"] else []) ++
    (if strContains content "## Safety constraints" = false then
      ["missing safety constraints section"] else []) ++
    (if strContains content "## Verification checklist" = false then
      ["missing verification checklist section"] else []) ++
    (candidate.constraints.filter (fun c => strContains content c = false)).map
      (fun c => "missing constraint: " ++ c) ++
    (candidate.tests.filter (fun t => strContains content t = false)).map
      (fun t => "missing test: " ++ t)
  ⟨candidate.id, skillName, failures.isEmpty, failures⟩

/-- The loop of verifySkillCandidates: checked counts examined planned
candidates, capped at MAX_VERIFIED_PER_RUN = 5; readFile models
readAutonomySkillFile with none as the thrown missing-file error. -/
def verifyGo (readFile : String → Option String) (nowMs : ℚ) :
    List SkillCandidateE → Nat → List SkillCandidateE × List SkillVerificationReport
  | [], _ => ([], [])
  | c :: rest, checked =>
    if 5 ≤ checked then (c :: rest, [])
    else if c.status ≠ .planned then
      let r := verifyGo readFile nowMs rest checked
      (c :: r.1, r.2)
    else
      match readFile c.name with
      | none =>
        let r := verifyGo readFile nowMs rest (checked + 1)
        ({ c with status := .rejected, updatedAt := nowMs } :: r.1,
          ⟨c.id, c.name, false, ["generated skill file is missing"]⟩ :: r.2)
      | some content =>
        let rep := verifySkillContent c.name content c
        let r := verifyGo readFile nowMs rest (checked + 1)
        ({ c with status := if rep.ok then .verified else .rejected, updatedAt := nowMs } :: r.1,
          rep :: r.2)

/-- verifySkillCandidates from skill-forge/verify.ts. -/
def verifySkillCandidates (readFile : String → Option String) (nowMs : ℚ)
    (candidates : List SkillCandidateE) :
    List SkillCandidateE × List SkillVerificationReport :=
  verifyGo readFile nowMs candidates 0

/-- Boolean planned-status test. -/
def candidateIsPlanned (c : SkillCandidateE) : Bool :=
  match c.status with
  | .planned => true
  | _ => false

/-- Number of planned candidates in a list. -/
def countPlanned (cs : List SkillCandidateE) : Nat := (cs.filter candidateIsPlanned).length

/-- The report the claim predicts for one examined candidate. -/
def expectedReport (readFile : String → Option String) (c : SkillCandidateE) :
    SkillVerificationReport :=
  match readFile c.name with
  | none => ⟨c.id, c.name, false, ["generated skill file is missing"]⟩
  | some content => verifySkillContent c.name content c

/-- The status the claim predicts for one examined candidate. -/
def expectedStatus (readFile : String → Option String) (c : SkillCandidateE) :
    CandidateStatus :=
  match readFile c.name with
  | none => .rejected
  | some content => if (verifySkillContent c.name content c).ok then .verified else .rejected

/-- The claim's content condition: the three section headers and every declared
constraint and test occur in the generated file. -/
def contentOk (content : String) (c : SkillCandidateE) : Prop :=
  strContains content "## Purpose" = true ∧
  strContains content "## Safety constraints" = true ∧
  strContains content "## Verification checklist" = true ∧
  (∀ k ∈ c.constraints, strContains content k = true) ∧
  (∀ t ∈ c.tests, strContains content t = true)

theorem verifyGo_length (readFile : String → Option String) (nowMs : ℚ) :
    ∀ (cs : List SkillCandidateE) (checked : Nat),
      (verifyGo readFile nowMs cs checked).1.length = cs.length
  | [], _ => rfl
  | c :: rest, checked => by
    unfold verifyGo
    split_ifs with h1 h2
    · rfl
    · simpa using verifyGo_length readFile nowMs rest checked
    · cases h : readFile c.name <;>
        simpa using verifyGo_length readFile nowMs rest (checked + 1)

theorem verifyGo_reports (readFile : String → Option String) (nowMs : ℚ) :
    ∀ (cs : List SkillCandidateE) (checked : Nat),
      (verifyGo readFile nowMs cs checked).2 =
        ((cs.filter candidateIsPlanned).take (5 - checked)).map (expectedReport readFile)
  | [], _ => by simp [verifyGo]
  | c :: rest, checked => by
    unfold verifyGo
    split_ifs with h1 h2
    · have : 5 - checked = 0 := by omega
      simp [this]
    · have hnp : candidateIsPlanned c = false := by
        unfold candidateIsPlanned
        cases hs : c.status <;> simp_all
      simp [hnp, verifyGo_reports readFile nowMs rest checked]
    · have hp : candidateIsPlanned c = true := by
        unfold candidateIsPlanned
        cases hs : c.status <;> simp_all
      have htake : 5 - checked = (5 - (checked + 1)) + 1 := by omega
      cases h : readFile c.name <;>
        simp [hp, htake, verifyGo_reports readFile nowMs rest (checked + 1),
          expectedReport, h]

theorem verifyGo_at (readFile : String → Option String) (nowMs : ℚ) :
    ∀ (cs : List SkillCandidateE) (checked : Nat) (i : Nat),
      (verifyGo readFile nowMs cs checked).1[i]? =
        match cs[i]? with
        | none => none
        | some c =>
          if c.status = .planned ∧ checked + countPlanned (cs.take i) < 5 then
            some { c with status := expectedStatus readFile c, updatedAt := nowMs }
          else some c
  | [], _, i => by simp [verifyGo]
  | c :: rest, checked, i => by
    unfold verifyGo
    split_ifs with h1 h2
    · cases i with
      | zero =>
        simp only [List.getElem?_cons_zero]
        rw [if_neg (by omega)]
      | succ j =>
        simp only [List.getElem?_cons_succ]
        cases hj : rest[j]? with
        | none => simp
        | some cj =>
          simp only [hj]
          rw [if_neg (by omega)]
    · cases i with
      | zero =>
        have : ¬ (c.status = .planned ∧ checked + countPlanned ((c :: rest).take 0) < 5) := by
          rintro ⟨hs, -⟩
          exact h2 hs
        simp only [List.getElem?_cons_zero]
        rw [if_neg this]
      | succ j =>
        have hnp : candidateIsPlanned c = false := by
          unfold candidateIsPlanned
          cases hs : c.status <;> simp_all
        have hcount : countPlanned ((c :: rest).take (j + 1)) = countPlanned (rest.take j) := by
          simp [countPlanned, hnp]
        simp only [List.getElem?_cons_succ]
        rw [verifyGo_at readFile nowMs rest checked j]
        simp only [hcount]
    · have hp : candidateIsPlanned c = true := by
        unfold candidateIsPlanned
        cases hs : c.status <;> simp_all
      have hps : c.status = .planned := by
        unfold candidateIsPlanned at hp
        cases hs : c.status <;> simp_all
      cases i with
      | zero =>
        have hcond : c.status = .planned ∧ checked + countPlanned ((c :: rest).take 0) < 5 := by
          refine ⟨hps, ?_⟩
          simp [countPlanned]
          omega
        cases h : readFile c.name <;>
          · simp only [List.getElem?_cons_zero]
            rw [if_pos hcond]
            simp [expectedStatus, h]
      | succ j =>
        have hcount : countPlanned ((c :: rest).take (j + 1)) =
            countPlanned (rest.take j) + 1 := by
          simp [countPlanned, hp]
        cases h : readFile c.name <;>
          · simp only [List.getElem?_cons_succ]
            rw [verifyGo_at readFile nowMs rest (checked + 1) j]
            simp only [hcount]
            cases hj : rest[j]? with
            | none => simp
            | some cj =>
              simp only []
              rw [show checked + 1 + countPlanned (rest.take j) =
                checked + (countPlanned (rest.take j) + 1) from by omega]

theorem verify_content_ok_iff (skillName content : String) (c : SkillCandidateE) :
    (verifySkillContent skillName content c).ok = true ↔ contentOk content c := by
  unfold verifySkillContent contentOk
  simp only [List.isEmpty_iff, List.append_eq_nil, List.map_eq_nil_iff, List.filter_eq_nil_iff]
  constructor
  · rintro ⟨⟨⟨⟨h1, h2⟩, h3⟩, h4⟩, h5⟩
    refine ⟨?_, ?_, ?_, ?_, ?_⟩
    · by_contra hx
      simp [Bool.not_eq_true] at hx
      simp [hx] at h1
    · by_contra hx
      simp [Bool.not_eq_true] at hx
      simp [hx] at h2
    · by_contra hx
      simp [Bool.not_eq_true] at hx
      simp [hx] at h3
    · intro k hk
      have := h4 k hk
      simp_all
    · intro t ht
      have := h5 t ht
      simp_all
  · rintro ⟨h1, h2, h3, h4, h5⟩
    refine ⟨⟨⟨⟨?_, ?_⟩, ?_⟩, ?_⟩, ?_⟩
    · simp [h1]
    · simp [h2]
    · simp [h3]
    · intro k hk
      simp [h4 k hk]
    · intro t ht
      simp [h5 t ht]

/-- C8: verifySkillCandidates keeps the candidate count, examines only the first
five planned candidates (all other entries come back unchanged), rejects a
planned candidate whose generated file is missing, marks one verified exactly
when its file holds the three section headers plus every declared constraint and
test, and yields one report (with its failure codes) per examined candidate. -/
theorem verify_skill_candidates_spec (readFile : String → Option String) (nowMs : ℚ)
    (cs : List SkillCandidateE) :
    (verifySkillCandidates readFile nowMs cs).1.length = cs.length ∧
    (verifySkillCandidates readFile nowMs cs).2 =
      ((cs.filter candidateIsPlanned).take 5).map (expectedReport readFile) ∧
    (∀ i : Nat,
      (verifySkillCandidates readFile nowMs cs).1[i]? =
        match cs[i]? with
        | none => none
        | some c =>
          if c.status = .planned ∧ countPlanned (cs.take i) < 5 then
            some { c with status := expectedStatus readFile c, updatedAt := nowMs }
          else some c) ∧
    (∀ c : SkillCandidateE,
      (readFile c.name = none → expectedStatus readFile c = .rejected) ∧
      (∀ content, readFile c.name = some content →
        (expectedStatus readFile c = .verified ↔ contentOk content c))) ∧
    (∀ (skillName content : String) (c : SkillCandidateE),
      (verifySkillContent skillName content c).ok = true ↔ contentOk content c) := by
  refine ⟨verifyGo_length readFile nowMs cs 0, ?_, ?_, ?_, verify_content_ok_iff⟩
  · rw [verifySkillCandidates, verifyGo_reports]
  · intro i
    rw [verifySkillCandidates, verifyGo_at]
    simp
  · intro c
    constructor
    · intro h
      unfold expectedStatus
      rw [h]
    · intro content h
      unfold expectedStatus
      rw [h]
      dsimp only
      by_cases hok : (verifySkillContent c.name content c).ok = true
      · rw [if_pos hok]
        simp only [true_iff]
        exact (verify_content_ok_iff c.name content c).mp hok
      · rw [if_neg hok]
        constructor
        · intro hx
          exact absurd hx (by simp)
        · intro hx
          exact absurd ((verify_content_ok_iff c.name content c).mpr hx) hok

/-- Planned candidate with a complete generated file for the C8 witness. -/
def verifyWitnessGood : SkillCandidateE :=
  ⟨"cand-good", "gap-1", "skill-good", "intent", .planned, 10, 0, 0, .reversible_write,
    ["must be reversible"], ["unit: covers rollback"]⟩

/-- Planned candidate whose generated file is missing. -/
def verifyWitnessMissing : SkillCandidateE :=
  ⟨"cand-missing", "gap-2", "skill-missing", "intent", .planned, 9, 0, 0, .reversible_write,
    ["must be reversible"], ["unit: covers rollback"]⟩

/-- File system of the C8 witness: only skill-good exists and its content holds
every required section, constraint and test. -/
def verifyWitnessFiles : String → Option String :=
  fun name =>
    if name = "skill-good" then
      some "## Purpose intent ## Safety constraints must be reversible ## Verification checklist unit: covers rollback"
    else none

/-- Witness for verify_skill_candidates_spec: the complete file verifies, the
missing file rejects. -/
theorem verify_skill_candidates_spec_witness :
    expectedStatus verifyWitnessFiles verifyWitnessGood = .verified ∧
    expectedStatus verifyWitnessFiles verifyWitnessMissing = .rejected ∧
    ((verifySkillCandidates verifyWitnessFiles 5
      [verifyWitnessGood, verifyWitnessMissing]).1.map (fun c => c.status)) =
        [.verified, .rejected] := by
  have hgood : verifyWitnessFiles verifyWitnessGood.name =
      some "## Purpose intent ## Safety constraints must be reversible ## Verification checklist unit: covers rollback" := by
    simp [verifyWitnessFiles, verifyWitnessGood]
  have hmissing : verifyWitnessFiles verifyWitnessMissing.name = none := by
    simp [verifyWitnessFiles, verifyWitnessMissing]
  have h1 : expectedStatus verifyWitnessFiles verifyWitnessGood = .verified := by
    refine ((verify_skill_candidates_spec verifyWitnessFiles 5 []).2.2.2.1
      verifyWitnessGood).2 _ hgood |>.mpr ?_
    refine ⟨by decide, by decide, by decide, ?_, ?_⟩
    · intro k hk
      simp only [verifyWitnessGood] at hk
      simp only [List.mem_singleton] at hk
      subst hk
      decide
    · intro t ht
      simp only [verifyWitnessGood] at ht
      simp only [List.mem_singleton] at ht
      subst ht
      decide
  have h2 : expectedStatus verifyWitnessFiles verifyWitnessMissing = .rejected :=
    ((verify_skill_candidates_spec verifyWitnessFiles 5 []).2.2.2.1
      verifyWitnessMissing).1 hmissing
  refine ⟨h1, h2, ?_⟩
  have ha := (verify_skill_candidates_spec verifyWitnessFiles 5
    [verifyWitnessGood, verifyWitnessMissing]).2.2.1
  have h0 := ha 0
  have hone := ha 1
  have hlen := (verify_skill_candidates_spec verifyWitnessFiles 5
    [verifyWitnessGood, verifyWitnessMissing]).1
  simp only [List.getElem?_cons_zero, List.getElem?_cons_succ] at h0 hone
  rw [if_pos ⟨rfl, by simp [countPlanned]⟩] at h0
  rw [if_pos ⟨rfl, by simp [countPlanned, candidateIsPlanned, verifyWitnessGood]⟩] at hone
  rcases hres : (verifySkillCandidates verifyWitnessFiles 5
    [verifyWitnessGood, verifyWitnessMissing]).1 with _ | ⟨x0, _ | ⟨x1, rest⟩⟩
  · rw [hres] at hlen
    simp at hlen
  · rw [hres] at hlen
    simp at hlen
  · rw [hres] at h0 hone hlen
    simp only [List.getElem?_cons_zero, List.getElem?_cons_succ, Option.some_inj] at h0 hone
    have hrest : rest = [] := by
      simpa using hlen
    subst hrest
    simp [h0, hone, h1, h2]

/-- Scenario step expectations (eval/scenarios.ts). -/
inductive ScenarioExpectation
  | improve
  | degrade
  | neutral
deriving DecidableEq, Repr

/-- Scenario kinds (eval/scenarios.ts). -/
inductive ScenarioKind
  | baseline
  | adversarial
  | regression
deriving DecidableEq, Repr

/-- AutonomyEvalScenarioStep (eval/scenarios.ts). -/
structure EvalScenarioStep where
  type : String
  expected : ScenarioExpectation
  weight : ℚ
deriving DecidableEq, Repr

/-- AutonomyEvalScenario (eval/scenarios.ts). -/
structure EvalScenario where
  id : String
  kind : ScenarioKind
  description : String
  steps : List EvalScenarioStep
deriving DecidableEq, Repr

/-- getDefaultAutonomyEvalScenarios from eval/scenarios.ts. -/
def getDefaultAutonomyEvalScenarios : List EvalScenario :=
  [{ id := "baseline-productivity"
     kind := .baseline
     description := "Balanced signal mix should keep autonomy stable and productive"
     steps := [⟨"autonomy.review.daily", .improve, 1.0⟩, ⟨"autonomy.review.weekly", .improve, 1.2⟩,
       ⟨"autonomy.task.stale.blocked", .degrade, 0.8⟩] },
   { id := "adversarial-error-burst"
     kind := .adversarial
     description := "Error bursts should not collapse score below floor with verified candidates"
     steps := [⟨"autonomy.queue.invalid", .degrade, 1.3⟩, ⟨"autonomy.queue.overflow", .degrade, 1.1⟩,
       ⟨"autonomy.augmentation.canary.evaluated", .neutral, 0.8⟩] },
   { id := "regression-promotion-readiness"
     kind := .regression
     description := "Promotion readiness should improve when verified candidates exist"
     steps := [⟨"autonomy.augmentation.candidates.updated", .improve, 1.4⟩,
       ⟨"autonomy.augmentation.phase.enter", .neutral, 0.7⟩,
       ⟨"autonomy.augmentation.policy.denied", .degrade, 1.0⟩] }]

/-- clampScore from eval/long-horizon-runner.ts (inputs here are always finite). -/
def clampScore (value : ℚ) : ℚ := max 0 (min 1 value)

/-- Boolean verified-status test. -/
def candidateIsVerified (c : SkillCandidateE) : Bool :=
  match c.status with
  | .verified => true
  | _ => false

/-- Task status values (types.ts). -/
inductive TaskStatus
  | pending
  | in_progress
  | blocked
  | completed
  | cancelled
deriving DecidableEq, Repr

/-- Task slice used by the eval runner. -/
structure AutonomyTaskE where
  id : String
  status : TaskStatus
deriving DecidableEq, Repr

/-- Boolean blocked-status test. -/
def taskIsBlocked (t : AutonomyTaskE) : Bool :=
  match t.status with
  | .blocked => true
  | _ => false

/-- The per-step adjustment loop of evaluateScenario. -/
def scenarioStepAdjust (score : ℚ) (step : EvalScenarioStep) : ℚ :=
  let weight := max 0 step.weight
  match step.expected with
  | .improve => score + 0.03 * weight
  | .degrade => score - 0.03 * weight
  | .neutral => score + 0.005 * weight

/-- evaluateScenario from eval/long-horizon-runner.ts. -/
def evaluateScenario (scenario : EvalScenario) (verifiedCandidateCount : Nat)
    (recentErrorRate : ℚ) (blockedTaskCount : Nat) : ℚ :=
  let candidateBoost := min 0.25 ((verifiedCandidateCount : ℚ) * 0.06)
  let errorPenalty := min 0.35 (recentErrorRate * 0.7)
  let blockedPenalty := min 0.2 ((blockedTaskCount : ℚ) * 0.02)
  let score := clampScore (0.65 + candidateBoost - errorPenalty - blockedPenalty)
  clampScore (scenario.steps.foldl scenarioStepAdjust score)

/-- One entry of the results list of the eval report. -/
structure LongHorizonScenarioResult where
  id : String
  kind : ScenarioKind
  score : ℚ
deriving DecidableEq, Repr

/-- LongHorizonEvalReport (eval/long-horizon-runner.ts). -/
structure LongHorizonEvalReport where
  scenarioCount : Nat
  score : ℚ
  results : List LongHorizonScenarioResult
deriving DecidableEq, Repr

/-- runLongHorizonScenarioPack from eval/long-horizon-runner.ts over the state
slice it reads: candidates, recent cycles and tasks. -/
def runLongHorizonScenarioPack (scenarios : Option (List EvalScenario))
    (candidates : List SkillCandidateE) (recentCycles : List CycleRecordE)
    (tasks : List AutonomyTaskE) : LongHorizonEvalReport :=
  let scenarioList := scenarios.getD getDefaultAutonomyEvalScenarios
  if scenarioList.isEmpty then
    ⟨0, 0, []⟩
  else
    let actionableCycles := recentCycles.filter cycleNotSkipped
    let recentErrorRate :=
      if 0 < actionableCycles.length then
        ((actionableCycles.filter cycleIsError).length : ℚ) / (actionableCycles.length : ℚ)
      else 0
    let verifiedCandidateCount := (candidates.filter candidateIsVerified).length
    let blockedTaskCount := (tasks.filter taskIsBlocked).length
    let results := scenarioList.map (fun scenario =>
      (⟨scenario.id, scenario.kind,
        evaluateScenario scenario verifiedCandidateCount recentErrorRate blockedTaskCount⟩ :
        LongHorizonScenarioResult))
    let score := clampScore ((results.foldl (fun sum r => sum + r.score) 0) /
      (results.length : ℚ))
    ⟨scenarioList.length, score, results⟩

/-- resolveRecentCanaryStatus from runtime.ts: the status of the most recent
canary-evaluated event whose payload status parses. -/
def canaryStatusOfEvent (e : AutonomyEventE) : Option CanaryStatus :=
  if e.type = "autonomy.augmentation.canary.evaluated" then
    match e.payload with
    | some p =>
      match p.getField "status" with
      | some (.str "healthy") => some .healthy
      | some (.str "regressed") => some .regressed
      | _ => none
    | none => none
  else none

/-- Backwards scan over recentEvents. -/
def resolveRecentCanaryStatus (recentEvents : List AutonomyEventE) : Option CanaryStatus :=
  (recentEvents.reverse.filterMap canaryStatusOfEvent).head?

/-- The PromotionGateInput the promote branch of processAugmentationCycle
builds (runtime.ts): note that the source passes no evalScore field and no
threshold overrides. -/
def promoteGateInput (recentCycles : List CycleRecordE) (candidates : List SkillCandidateE)
    (recentEvents : List AutonomyEventE) : PromotionGateInput :=
  let actionable := (jsTakeLast 5 recentCycles).filter cycleNotSkipped
  { verifiedCandidateCount := some (((candidates.filter candidateIsVerified).length : ℚ))
    recentCycleCount := some ((actionable.length : ℚ))
    recentErrorCount := some (((actionable.filter cycleIsError).length : ℚ))
    canaryStatus := resolveRecentCanaryStatus recentEvents
    evalScore := none
    minimumRecentCycles := none
    maximumErrorRate := none
    minimumEvalScore := none }

/-- resolveExecutionClassForStage from runtime.phase-machine.ts. -/
def resolveExecutionClassForStage (stage : Stage) : ExecutionClass :=
  if stage = .promote ∨ stage = .retire then .destructive
  else if stage = .synthesize ∨ stage = .verify ∨ stage = .canary then .reversible_write
  else .read_only

/-- Boolean open-status test for gaps. -/
def gapIsOpen (g : GapE) : Bool :=
  match g.status with
  | .open_ => true
  | _ => false

/-- Boolean candidate-or-planned test. -/
def candidateIsActive (c : SkillCandidateE) : Bool :=
  match c.status with
  | .candidate => true
  | .planned => true
  | _ => false

/-- resolveNextAugmentationStage from runtime.phase-machine.ts. -/
def resolveNextAugmentationStage (stage : Stage) (gaps : List GapE)
    (candidates : List SkillCandidateE) : Stage :=
  let hasOpenGaps := gaps.any gapIsOpen
  let hasCandidates := candidates.any candidateIsActive
  let hasVerifiedCandidates := candidates.any candidateIsVerified
  if stage = .discover then (if hasOpenGaps then .design else .discover)
  else if stage = .design then (if hasCandidates then .synthesize else .discover)
  else if stage = .synthesize then (if hasCandidates then .verify else .discover)
  else if stage = .verify then (if hasVerifiedCandidates then .canary else .discover)
  else if stage = .canary then (if hasVerifiedCandidates then .promote else .discover)
  else if stage = .promote then .observe
  else if stage = .observe then .learn
  else if stage = .learn then .retire
  else .discover

/-- Stage serialization used in action names. -/
def stageString : Stage → String
  | .discover => "discover"
  | .design => "design"
  | .synthesize => "synthesize"
  | .verify => "verify"
  | .canary => "canary"
  | .promote => "promote"
  | .observe => "observe"
  | .learn => "learn"
  | .retire => "retire"

/-- DEFAULT_AUTONOMY_POLICY_VERSION from policy/runtime.ts (concatenated into
the store test file in this snapshot). -/
def DEFAULT_AUTONOMY_POLICY_VERSION : String := "2026-02-13"

/-- AutonomyPolicyRuntimeConfig from policy/types.ts. -/
structure AutonomyPolicyRuntimeConfig where
  version : String
  destructiveActionsRequireApproval : Bool
  reversibleWriteActionsRequireApproval : Bool
  actionClassOverrides : List (String × ExecutionClass)
  explicitAllowActions : List String
  explicitDenyActions : List String

/-- The optional overrides record accepted by createDefaultAutonomyPolicyConfig;
none models an absent field. -/
structure PolicyConfigOverrides where
  version : Option String
  destructiveActionsRequireApproval : Option Bool
  reversibleWriteActionsRequireApproval : Option Bool
  actionClassOverrides : Option (List (String × ExecutionClass))
  explicitAllowActions : Option (List String)
  explicitDenyActions : Option (List String)

/-- createDefaultAutonomyPolicyConfig from policy/runtime.ts: trimmed version
with blank falling back to the default, destructive approval on unless the
override is explicitly false, reversible-write approval off unless explicitly
true, lists and overrides defaulting to empty. -/
def createDefaultAutonomyPolicyConfig (given : Option PolicyConfigOverrides) :
    AutonomyPolicyRuntimeConfig :=
  { version :=
      match given.bind (fun p => p.version) with
      | some v =>
        if jsTrimString v = "" then DEFAULT_AUTONOMY_POLICY_VERSION else jsTrimString v
      | none => DEFAULT_AUTONOMY_POLICY_VERSION
    destructiveActionsRequireApproval :=
      match given.bind (fun p => p.destructiveActionsRequireApproval) with
      | some false => false
      | _ => true
    reversibleWriteActionsRequireApproval :=
      match given.bind (fun p => p.reversibleWriteActionsRequireApproval) with
      | some true => true
      | _ => false
    actionClassOverrides := (given.bind (fun p => p.actionClassOverrides)).getD []
    explicitAllowActions := (given.bind (fun p => p.explicitAllowActions)).getD []
    explicitDenyActions := (given.bind (fun p => p.explicitDenyActions)).getD [] }

/-- resolveAutonomyActionClass from policy/runtime.ts: the configured override
for the action when present, else the caller fallback class. -/
def resolveAutonomyActionClass (action : String) (fallbackClass : ExecutionClass)
    (config : AutonomyPolicyRuntimeConfig) : ExecutionClass :=
  match assocGet action config.actionClassOverrides with
  | some cls => cls
  | none => fallbackClass

/-- Approval levels of a policy decision (policy/types.ts). -/
inductive PolicyApprovalLevel
  | none
  | operator
deriving DecidableEq, Repr

/-- Tags for the five reason template strings of evaluateAutonomyPolicy, in
source order. -/
inductive PolicyReason
  | explicitlyDenied
  | explicitlyAllowed
  | destructiveNeedsApproval
  | reversibleNeedsApproval
  | allowedByDefault
deriving DecidableEq, Repr

/-- AutonomyPolicyDecision from policy/types.ts. -/
structure AutonomyPolicyDecision where
  allowed : Bool
  action : String
  executionClass : ExecutionClass
  approvalLevel : PolicyApprovalLevel
  policyVersion : String
  reason : PolicyReason
deriving DecidableEq, Repr

/-- evaluateAutonomyPolicy from policy/runtime.ts, branch for branch: deny
list, allow list for read_only, destructive needs approval, reversible_write
needs approval when configured, otherwise allow; approvedByOperator is the
optional flag, approved only when it is literally true. -/
def evaluateAutonomyPolicy (action : String) (executionClass : ExecutionClass)
    (config : AutonomyPolicyRuntimeConfig) (approvedByOperator : Option Bool) :
    AutonomyPolicyDecision :=
  let approved : Bool := decide (approvedByOperator = some true)
  let deniedByList := config.explicitDenyActions.contains action
  let allowedByList := config.explicitAllowActions.contains action
  if deniedByList then
    ⟨false, action, executionClass, .operator, config.version, .explicitlyDenied⟩
  else if allowedByList = true ∧ executionClass = .read_only then
    ⟨true, action, executionClass, .none, config.version, .explicitlyAllowed⟩
  else if executionClass = .destructive ∧ config.destructiveActionsRequireApproval = true ∧
      approved = false then
    ⟨false, action, executionClass, .operator, config.version, .destructiveNeedsApproval⟩
  else if executionClass = .reversible_write ∧
      config.reversibleWriteActionsRequireApproval = true ∧ approved = false then
    ⟨false, action, executionClass, .operator, config.version, .reversibleNeedsApproval⟩
  else ⟨true, action, executionClass, .none, config.version, .allowedByDefault⟩

/-- Outcome of the tail of processAugmentationCycle. -/
structure StageDecision where
  candidates : List SkillCandidateE
  stage : Stage
  eventTypes : List String
  ledger : List LedgerEventType

/-- The stage-decision tail of processAugmentationCycle (runtime.ts) for a cycle
with no discovery signals and no planner output: run the canary branch when in
canary, run the promote gates when in promote, then evaluate policy on
autonomy.stage.next with approvedByOperator hardcoded to false as in the
source, and freeze the stage on any denial. -/
def augmentationStageDecision (stage : Stage) (gaps : List GapE)
    (candidates : List SkillCandidateE) (recentCycles : List CycleRecordE)
    (recentEvents : List AutonomyEventE) (nowMs : ℚ) (policyVersion : String) :
    StageDecision :=
  let canaryPart :=
    if stage = .canary then
      let step := canaryStageStep recentCycles candidates nowMs
      (step.1, ["autonomy.augmentation.canary.evaluated"], [step.2.1])
    else (candidates, [], [])
  let candidates1 := canaryPart.1
  let nextStage0 := resolveNextAugmentationStage stage gaps candidates1
  let gatePart :=
    if stage = .promote then
      let gate := evaluatePromotionGates (promoteGateInput recentCycles candidates1 recentEvents)
      if gate.passed = false then
        (stage, true, ["autonomy.augmentation.policy.denied"], [LedgerEventType.policy_denied])
      else (nextStage0, false, [], [])
    else (nextStage0, false, [], [])
  let nextStage := gatePart.1
  let skipPolicyCheck := gatePart.2.1
  if skipPolicyCheck = false then
    let action := "autonomy.stage." ++ stageString nextStage
    let policyConfig := createDefaultAutonomyPolicyConfig
      (some ⟨some policyVersion, none, none, none, none, none⟩)
    let executionClass := resolveAutonomyActionClass action
      (resolveExecutionClassForStage nextStage) policyConfig
    let policyDecision := evaluateAutonomyPolicy action executionClass policyConfig
      (some false)
    if policyDecision.allowed = false then
      { candidates := candidates1
        stage := stage
        eventTypes := canaryPart.2.1 ++ gatePart.2.2.1 ++ ["autonomy.augmentation.policy.denied"]
        ledger := canaryPart.2.2 ++ gatePart.2.2.2 ++ [LedgerEventType.policy_denied] }
    else if stage ≠ nextStage then
      { candidates := candidates1
        stage := nextStage
        eventTypes := canaryPart.2.1 ++ gatePart.2.2.1 ++
          ["autonomy.augmentation.phase.exit", "autonomy.augmentation.phase.enter"]
        ledger := canaryPart.2.2 ++ gatePart.2.2.2 ++
          [LedgerEventType.phase_exit, LedgerEventType.phase_enter] }
    else
      { candidates := candidates1
        stage := stage
        eventTypes := canaryPart.2.1 ++ gatePart.2.2.1
        ledger := canaryPart.2.2 ++ gatePart.2.2.2 }
  else if stage ≠ nextStage then
    { candidates := candidates1
      stage := nextStage
      eventTypes := canaryPart.2.1 ++ gatePart.2.2.1 ++
        ["autonomy.augmentation.phase.exit", "autonomy.augmentation.phase.enter"]
      ledger := canaryPart.2.2 ++ gatePart.2.2.2 ++
        [LedgerEventType.phase_exit, LedgerEventType.phase_enter] }
  else
    { candidates := candidates1
      stage := stage
      eventTypes := canaryPart.2.1 ++ gatePart.2.2.1
      ledger := canaryPart.2.2 ++ gatePart.2.2.2 }

/-- The verified candidate of the repository's approval-consumption test. -/
def approvalTestCandidate : SkillCandidateE :=
  ⟨"candidate-approve", "gap-approve", "autonomy-approve-skill", "allow promote transition",
    .verified, 100, 0, 0, .reversible_write, ["must be reversible and observable"],
    ["unit: verifies approval bridge"]⟩

/-- Three healthy recent cycles from the same test. -/
def approvalTestCycles : List CycleRecordE :=
  [⟨0, .ok, some 100⟩, ⟨1, .ok, some 110⟩, ⟨2, .ok, some 120⟩]

/-- C1: the augmentation cycle never consults queued approval grants — the next
stage from canary with a verified candidate is promote, but the policy check
runs with approvedByOperator hardcoded to false, so the default destructive
policy denies it, the stage freezes at canary, and no
autonomy.approval.applied event can be emitted. -/
theorem approval_grant_never_consumed :
    resolveNextAugmentationStage .canary [] [approvalTestCandidate] = .promote ∧
    (evaluateAutonomyPolicy "autonomy.stage.promote" .destructive
      (createDefaultAutonomyPolicyConfig none) (some false)).allowed = false ∧
    (augmentationStageDecision .canary [] [approvalTestCandidate] approvalTestCycles []
      1000000 "2026-02-13").stage = .canary ∧
    (augmentationStageDecision .canary [] [approvalTestCandidate] approvalTestCycles []
      1000000 "2026-02-13").eventTypes =
      ["autonomy.augmentation.canary.evaluated", "autonomy.augmentation.policy.denied"] ∧
    ((augmentationStageDecision .canary [] [approvalTestCandidate] approvalTestCycles []
      1000000 "2026-02-13").eventTypes.contains "autonomy.approval.applied") = false := by
  refine ⟨?_, ?_, ?_, ?_, ?_⟩ <;>
  · simp [augmentationStageDecision, resolveNextAugmentationStage, gapIsOpen,
      candidateIsActive, candidateIsVerified, approvalTestCandidate, approvalTestCycles,
      canaryStageStep, canaryErrorRate, canaryActionable, canaryLatencies, canaryLatencyP95,
      canaryBaselineLatency, evaluateCanaryHealth, clampNonNegative, cycleNotSkipped,
      cycleIsError, jsTakeLast, jsToSorted, jsInsertSorted, jsFloor, demoteVerified,
      evaluateAutonomyPolicy, createDefaultAutonomyPolicyConfig, resolveAutonomyActionClass,
      resolveExecutionClassForStage, assocGet, stageString, evaluatePromotionGates,
      promoteGateInput, gateVerifiedCount, gateRecentCycleCount, gateRecentErrorCount,
      gateMinimumRecentCycles, gateMaximumErrorRate, gateMinimumEvalScore, gateEvalScore,
      gateErrorRate, normalizeCount, jsClamp, resolveRecentCanaryStatus, canaryStatusOfEvent]
    try norm_num
    try exact ⟨by decide, by decide⟩

/-- The verified candidate of the repository's long-horizon eval test. -/
def promoteTestCandidate : SkillCandidateE :=
  ⟨"candidate-promote", "gap-promote", "autonomy-promote-skill", "pass promote stage",
    .verified, 100, 0, 0, .reversible_write, ["must be reversible and observable"],
    ["unit: promote eval"]⟩

/-- Three healthy recent cycles from the same test. -/
def promoteTestCycles : List CycleRecordE :=
  [⟨0, .ok, some 100⟩, ⟨1, .ok, some 105⟩, ⟨2, .ok, some 110⟩]

/-- C2: the promote branch builds its gate input without any evalScore, so the
normalized eval score is 0 and the promotion gate can never pass; at the
repository's own test state the gate fails with the eval-score reason and the
stage freezes at promote, while the long-horizon scenario pack the claim says
should be run and stored would score 0.7065, above the 0.6 minimum. -/
theorem promote_eval_never_run :
    (∀ (recentCycles : List CycleRecordE) (candidates : List SkillCandidateE)
        (recentEvents : List AutonomyEventE),
      (evaluatePromotionGates (promoteGateInput recentCycles candidates recentEvents)).passed =
        false) ∧
    (promoteGateInput promoteTestCycles [promoteTestCandidate] []).evalScore = none ∧
    (evaluatePromotionGates
      (promoteGateInput promoteTestCycles [promoteTestCandidate] [])).reason =
        .evalScoreBelowMinimum ∧
    (augmentationStageDecision .promote [] [promoteTestCandidate] promoteTestCycles []
      1000000 "2026-02-13").stage = .promote ∧
    (augmentationStageDecision .promote [] [promoteTestCandidate] promoteTestCycles []
      1000000 "2026-02-13").eventTypes = ["autonomy.augmentation.policy.denied"] ∧
    (runLongHorizonScenarioPack none [promoteTestCandidate] promoteTestCycles []).score =
      0.7065 ∧
    (0.6 : ℚ) ≤
      (runLongHorizonScenarioPack none [promoteTestCandidate] promoteTestCycles []).score := by
  have hnever : ∀ (recentCycles : List CycleRecordE) (candidates : List SkillCandidateE)
      (recentEvents : List AutonomyEventE),
      (evaluatePromotionGates (promoteGateInput recentCycles candidates recentEvents)).passed =
        false := by
    intro recentCycles candidates recentEvents
    unfold evaluatePromotionGates
    split_ifs with h1 h2 h3 h4 h5
    · rfl
    · rfl
    · rfl
    · rfl
    · rfl
    · exfalso
      apply h5
      simp only [gateEvalScore, gateMinimumEvalScore, promoteGateInput]
      norm_num
  refine ⟨hnever, rfl, ?_, ?_, ?_, ?_, ?_⟩ <;>
  · simp [augmentationStageDecision, resolveNextAugmentationStage, gapIsOpen,
      candidateIsActive, candidateIsVerified, promoteTestCandidate, promoteTestCycles,
      evaluatePromotionGates, promoteGateInput, gateVerifiedCount, gateRecentCycleCount,
      gateRecentErrorCount, gateMinimumRecentCycles, gateMaximumErrorRate,
      gateMinimumEvalScore, gateEvalScore, gateErrorRate, normalizeCount, jsClamp, jsFloor,
      jsTakeLast, cycleNotSkipped, cycleIsError, resolveRecentCanaryStatus,
      canaryStatusOfEvent, runLongHorizonScenarioPack, getDefaultAutonomyEvalScenarios,
      evaluateScenario, scenarioStepAdjust, clampScore, taskIsBlocked,
      evaluateAutonomyPolicy, createDefaultAutonomyPolicyConfig, resolveAutonomyActionClass,
      resolveExecutionClassForStage, assocGet, stageString]
    try norm_num
